import Mathlib

/-!
# Anime Catalog: `static/js/base.js`

A shallow embedding of the page script.  The document is a record of the
elements the script binds to, the script's closures and registered listeners
are explicit fields of a `State`, timers are a queue of pending callbacks with
their due time in milliseconds, and each handler of the script is a function
on `State`.

Conventions of the embedding

* a `classList` is the list of its tokens;
* scroll offsets and element offsets are integers (CSS pixels);
* every element created by the script gets a fresh number (`nextId`), which
  stands for the identity of the JavaScript object;
* time is ideal: a timer fires at its due time, timers fire in order of due
  time and, among equal due times, in order of registration;
* an exception thrown inside a listener does not stop the dispatch of the
  event to the other listeners; it is recorded in `State.errors`;
* the document holds the modals and notifications that are children of
  `body`; the style of a node that has been taken out is not followed, no
  code reads it;
* what the HTML parser makes of a title with markup given to `showModal` is
  an input of the model: the call carries whether the `.modal-close` button
  of the template is still found (line 362); a title without `<` always
  leaves it in place;
* `debounce` and `throttle` (lines 238-262) are called nowhere in the file
  and are left out.
-/

namespace AnimeCatalog

/-! ## DOMTokenList -/

namespace classList

/-- The method `classList.contains(token)`. -/
def contains (c : List String) (t : String) : Bool := decide (t ∈ c)

/-- The method `classList.add(token)`. -/
def add (c : List String) (t : String) : List String :=
  if contains c t then c else c ++ [t]

/-- The method `classList.remove(token)`. -/
def remove (c : List String) (t : String) : List String :=
  c.filter (fun x => decide (x ≠ t))

/-- The method `classList.toggle(token)`. -/
def toggle (c : List String) (t : String) : List String :=
  if contains c t then remove c t else add c t

end classList

/-! ## Elements and document -/

/-- Exceptions the script can raise. -/
inductive JsError where
  /-- SyntaxError of `querySelector`: the string is not a valid selector. -/
  | invalidSelector (selector : String)
  /-- TypeError: a property was read from `null`. -/
  | nullProperty (property : String)
  deriving DecidableEq, Repr

/-- The element `#loading`. -/
structure Overlay where
  classes : List String
  inDocument : Bool
  deriving DecidableEq, Repr

/-- The element `#mobileMenuBtn`. -/
structure MenuButton where
  classes : List String
  ariaExpanded : Option String
  ariaLabel : Option String
  deriving DecidableEq, Repr

/-- The element `#header`. -/
structure Header where
  classes : List String
  transform : String
  deriving DecidableEq, Repr

/-- An `a` element whose `href` starts with `#`; `inMenu` says whether it lies
inside `#mobileMenuBtn` or `.nav-list`. -/
structure Anchor where
  href : String
  inMenu : Bool
  deriving DecidableEq, Repr

/-- The element made by `showNotification`. -/
structure Notification where
  id : Nat
  className : String
  textContent : String
  backgroundColor : String
  transform : String
  deriving DecidableEq, Repr

/-- The overlay made by `showModal`, with the style of its `.modal` panel. -/
structure Modal where
  id : Nat
  title : String
  content : String
  opacity : String
  panelTransform : String
  deriving DecidableEq, Repr

/-- The `body` element. -/
structure Body where
  overflow : String
  classes : List String
  deriving DecidableEq, Repr

/-- The document: the elements the script looks up, and the children it
appends to `body`.  `matched` lists, for a selector string, the `offsetTop` of
the first element it matches; a string not listed matches nothing. -/
structure Document where
  loading : Option Overlay
  mobileMenuBtn : Option MenuButton
  navList : Option (List String)
  backToTop : Option (List String)
  header : Option Header
  siteHeader : Option Int
  siteContent : Option String
  anchors : List Anchor
  matched : List (String × Int)
  body : Body
  skipLinkTop : Option String
  notifications : List Notification
  modals : List Modal
  deriving DecidableEq, Repr

/-- A code point that can start a CSS identifier: a letter, an underscore or a
code point outside ASCII (the null character is read as one). -/
def identStart (c : Char) : Bool :=
  c.isAlpha || c == '_' || decide (128 ≤ c.toNat) || decide (c.toNat = 0)

/-- Whether the characters after the hash start a CSS identifier: an
identifier start, or a hyphen followed by an identifier start or by a second
hyphen.  A backslash opens an escape; escapes are counted as starting one. -/
def startsIdentifier : List Char → Bool
  | [] => false
  | c :: rest =>
    if c.toNat = 92 then true
    else if c == '-' then
      match rest with
      | [] => false
      | d :: _ => identStart d || d == '-' || decide (d.toNat = 92)
    else identStart c

/-- The call `document.querySelector(selector)` for the selectors of anchor targets.
A hash that is not followed by the start of an identifier (the bare hash, a
digit, a punctuation mark) is not a selector, and the call throws.  Other
strings are looked up in `matched`; whether the rest of such a string parses
is not decided here. -/
def Document.querySelector (d : Document) (selector : String) :
    Except JsError (Option Int) :=
  match selector.toList with
  | '#' :: rest =>
    if startsIdentifier rest then .ok (d.matched.lookup selector)
    else .error (.invalidSelector selector)
  | _ => .ok (d.matched.lookup selector)

/-! ## Timers -/

/-- The callbacks the script passes to `setTimeout`. -/
inductive TimerAction where
  /-- lines 29-35 -/
  | loadHide
  /-- lines 39-44 -/
  | loadFallback
  /-- lines 32-34 and 42 -/
  | loadRemove
  /-- lines 295-297 -/
  | notifyIn (id : Nat)
  /-- lines 300-307 -/
  | notifyOut (id : Nat)
  /-- lines 302-306 -/
  | notifyRemove (id : Nat)
  /-- lines 356-359 -/
  | modalIn (id : Nat)
  /-- lines 387-391 -/
  | modalRemove (id : Nat)
  deriving DecidableEq, Repr

/-- A pending `setTimeout`. -/
structure Timer where
  due : Nat
  action : TimerAction
  deriving DecidableEq, Repr

/-- The page: document, window, closures, listeners and pending timers. -/
structure State where
  doc : Document
  pageYOffset : Int
  /-- the variable `lastScrollY` of `initHeaderScroll` -/
  lastScrollY : Int
  now : Nat
  timers : List Timer
  nextId : Nat
  /-- line 28 -/
  loadListener : Bool
  /-- lines 57, 73 and 84 -/
  menuListeners : Bool
  /-- lines 105 and 114 -/
  backToTopListeners : Bool
  /-- line 132 -/
  headerListener : Bool
  /-- line 163: the anchors that were given a click listener -/
  anchorListeners : List Anchor
  /-- lines 219 and 227 -/
  keyboardListeners : Bool
  /-- line 372: the `closeOnEscape` listeners on the document, by modal -/
  escapeListeners : List Nat
  /-- lines 363 and 365: the modals whose close button and overlay have their
  click listener -/
  closeListeners : List Nat
  /-- the `top` of every `window.scrollTo` call made so far -/
  scrollCalls : List Int
  /-- uncaught exceptions -/
  errors : List JsError
  deriving DecidableEq, Repr

/-- The call `setTimeout(action, delay)`. -/
def setTimeout (s : State) (action : TimerAction) (delay : Nat) : State :=
  { s with timers := s.timers ++ [⟨s.now + delay, action⟩] }

/-! ## Initialisation (lines 7-17) -/

/-- Lines 23-46. -/
def initLoadingScreen (s : State) : State :=
  match s.doc.loading with
  | some o =>
    if o.inDocument then setTimeout { s with loadListener := true } .loadFallback 3000
    else s
  | none => s

/-- Lines 52-94, the registration of the three listeners. -/
def initMobileMenu (s : State) : State :=
  match s.doc.mobileMenuBtn, s.doc.navList with
  | some _, some _ => { s with menuListeners := true }
  | _, _ => s

/-- Lines 100-121. -/
def initBackToTop (s : State) : State :=
  match s.doc.backToTop with
  | some _ => { s with backToTopListeners := true }
  | none => s

/-- Lines 127-154. -/
def initHeaderScroll (s : State) : State :=
  let s1 := { s with lastScrollY := s.pageYOffset }
  match s.doc.header with
  | some _ => { s1 with headerListener := true }
  | none => s1

/-- Lines 160-178, the registration. -/
def initSmoothScrolling (s : State) : State :=
  { s with anchorListeners := s.doc.anchors }

/-- Lines 184-230. -/
def initAccessibility (s : State) : State :=
  { s with
    doc := { s.doc with
      skipLinkTop := some "-40px"
      siteContent := s.doc.siteContent.map (fun _ => "main-content") }
    keyboardListeners := true }

/-- The state of a freshly parsed page, before the script has run. -/
def State.ofDocument (d : Document) (y : Int) : State :=
  { doc := d, pageYOffset := y, lastScrollY := 0, now := 0, timers := [], nextId := 0
    loadListener := false, menuListeners := false, backToTopListeners := false
    headerListener := false, anchorListeners := [], keyboardListeners := false
    escapeListeners := [], closeListeners := [], scrollCalls := [], errors := [] }

/-- The `DOMContentLoaded` listener, lines 7-17. -/
def domContentLoaded (s : State) : State :=
  initAccessibility (initSmoothScrolling (initHeaderScroll (initBackToTop
    (initMobileMenu (initLoadingScreen s)))))

/-! ## Loading screen (lines 23-46) -/

/-- The `load` listener, lines 28-36. -/
def onLoad (s : State) : State :=
  if s.loadListener then setTimeout s .loadHide 500 else s

/-- Lines 29-35: hide the overlay, then remove it after the animation. -/
def loadHide (s : State) : State :=
  match s.doc.loading with
  | some o =>
    setTimeout { s with doc := { s.doc with
      loading := some { o with classes := classList.add o.classes "hidden" } } } .loadRemove 300
  | none => s

/-- Lines 39-44: the fallback after three seconds. -/
def loadFallback (s : State) : State :=
  match s.doc.loading with
  | some o =>
    if !classList.contains o.classes "hidden" then
      setTimeout { s with doc := { s.doc with
        loading := some { o with classes := classList.add o.classes "hidden" } } } .loadRemove 300
    else s
  | none => s

/-- The call `loadingOverlay.remove()`, lines 33 and 42. -/
def loadRemove (s : State) : State :=
  match s.doc.loading with
  | some o => { s with doc := { s.doc with loading := some { o with inDocument := false } } }
  | none => s

/-! ## Mobile menu (lines 52-94) -/

/-- The click listener of the button, lines 57-70. -/
def menuToggle (s : State) : State :=
  match s.doc.mobileMenuBtn, s.doc.navList with
  | some b, some n =>
    let isActive := classList.contains n "active"
    { s with doc := { s.doc with
        navList := some (classList.toggle n "active")
        mobileMenuBtn := some
          { classes := classList.toggle b.classes "active"
            ariaExpanded := some (if isActive then "false" else "true")
            ariaLabel := some (if isActive then "Открыть меню" else "Закрыть меню") }
        body := { s.doc.body with overflow := if isActive then "" else "hidden" } } }
  | _, _ => s

/-- The five statements that close the menu, lines 75-79 and 86-90. -/
def menuClose (s : State) : State :=
  match s.doc.mobileMenuBtn, s.doc.navList with
  | some b, some n =>
    { s with doc := { s.doc with
        navList := some (classList.remove n "active")
        mobileMenuBtn := some
          { classes := classList.remove b.classes "active"
            ariaExpanded := some "false"
            ariaLabel := some "Открыть меню" }
        body := { s.doc.body with overflow := "" } } }
  | _, _ => s

/-- Whether the nav list carries `active`. -/
def navActive (s : State) : Bool :=
  match s.doc.navList with
  | some n => classList.contains n "active"
  | none => false

/-- The keydown listener of the menu, lines 84-92. -/
def menuKeydown (s : State) (key : String) : State :=
  if key = "Escape" ∧ navActive s = true then menuClose s else s

/-! ## Back to top and header (lines 100-154) -/

/-- The scroll listener of the button, lines 105-111. -/
def backToTopScroll (s : State) : State :=
  match s.doc.backToTop with
  | some c =>
    if s.pageYOffset > 300 then
      { s with doc := { s.doc with backToTop := some (classList.add c "visible") } }
    else
      { s with doc := { s.doc with backToTop := some (classList.remove c "visible") } }
  | none => s

/-- The scroll listener of the header, lines 132-152. -/
def headerScroll (s : State) : State :=
  match s.doc.header with
  | some h =>
    let currentScrollY := s.pageYOffset
    let classes :=
      if currentScrollY > 10 then classList.add h.classes "scrolled"
      else classList.remove h.classes "scrolled"
    let transform :=
      if currentScrollY > s.lastScrollY ∧ currentScrollY > 100 then "translateY(-100%)"
      else "translateY(0)"
    { s with
      doc := { s.doc with header := some { classes := classes, transform := transform } }
      lastScrollY := currentScrollY }
  | none => s

/-! ## Smooth scrolling (lines 160-178) -/

/-- The click listener of an anchor, lines 163-176. -/
def anchorClick (s : State) (a : Anchor) : Except JsError State :=
  match s.doc.querySelector a.href with
  | .error e => .error e
  | .ok none => .ok s
  | .ok (some offsetTop) =>
    match s.doc.siteHeader with
    | none => .error (.nullProperty "offsetHeight")
    | some headerHeight =>
      .ok { s with scrollCalls := s.scrollCalls ++ [offsetTop - headerHeight - 20] }

/-! ## Notifications and modals (lines 265-420) -/

/-- The table `colors` of lines 284-289. -/
def colors : List (String × String) :=
  [("success", "#4ade80"), ("error", "#f87171"), ("warning", "#fbbf24"), ("info", "#667eea")]

/-- The property names every object inherits from `Object.prototype`. -/
def objectPrototypeKeys : List String :=
  ["constructor", "__proto__", "hasOwnProperty", "isPrototypeOf", "propertyIsEnumerable",
    "toLocaleString", "toString", "valueOf", "__defineGetter__", "__defineSetter__",
    "__lookupGetter__", "__lookupSetter__"]

/-- Line 290: `colors[type] || colors.info`.  For an inherited key `colors[type]`
is a function or an object, which is truthy and no colour: the assignment is
dropped and the background stays unset. -/
def notificationColor (type : String) : String :=
  match colors.lookup type with
  | some c => c
  | none => if type ∈ objectPrototypeKeys then "" else "#667eea"

/-- Lines 265-308.  The new element is number `s.nextId`. -/
def showNotification (s : State) (message type : String) (duration : Nat) : State :=
  let n : Notification :=
    { id := s.nextId
      className := "notification notification-" ++ type
      textContent := message
      backgroundColor := notificationColor type
      transform := "translateX(100%)" }
  let s1 := { s with
    doc := { s.doc with notifications := s.doc.notifications ++ [n] }
    nextId := s.nextId + 1 }
  setTimeout (setTimeout s1 (.notifyIn n.id) 100) (.notifyOut n.id) duration

/-- Lines 295-297. -/
def notifyIn (s : State) (id : Nat) : State :=
  { s with doc := { s.doc with notifications := s.doc.notifications.map (fun n =>
      if n.id = id then { n with transform := "translateX(0)" } else n) } }

/-- Lines 300-307. -/
def notifyOut (s : State) (id : Nat) : State :=
  setTimeout { s with doc := { s.doc with notifications := s.doc.notifications.map (fun n =>
      if n.id = id then { n with transform := "translateX(100%)" } else n) } }
    (.notifyRemove id) 300

/-- Lines 302-306. -/
def notifyRemove (s : State) (id : Nat) : State :=
  { s with doc := { s.doc with
      notifications := s.doc.notifications.filter (fun n => decide (n.id ≠ id)) } }

/-- Whether `modal.querySelector('.modal-close')` of line 362 finds the button
of the template.  `title` is inserted as markup in front of the button: a
title without `<` is text and leaves the button in place; a title with markup
may take it in (an open comment, an open `textarea`), and what the HTML parser
makes of it is the input `parsed`. -/
def closeButtonFound (title : String) (parsed : Bool) : Bool :=
  !title.toList.contains '<' || parsed

/-- Lines 311-380.  The new overlay is number `s.nextId`.  The `.modal` panel of
line 341 stands in front of both insertions and is always found.  When the
close button is not found (see `closeButtonFound`), line 363 throws: the
overlay has been appended (line 353) and the first timer set (line 356), and
none of the listeners of lines 363-377 is registered. -/
def showModal (s : State) (content title : String) (parsed : Bool) : State :=
  let m : Modal :=
    { id := s.nextId, title := title, content := content
      opacity := "0", panelTransform := "scale(0.9)" }
  let s1 := { s with
    doc := { s.doc with modals := s.doc.modals ++ [m] }
    nextId := s.nextId + 1 }
  let s2 := setTimeout s1 (.modalIn m.id) 10
  match closeButtonFound title parsed with
  | true =>
    { s2 with
      closeListeners := s2.closeListeners ++ [m.id]
      escapeListeners := s2.escapeListeners ++ [m.id] }
  | false => { s2 with errors := s2.errors ++ [.nullProperty "addEventListener"] }

/-- Lines 356-359. -/
def modalIn (s : State) (id : Nat) : State :=
  { s with doc := { s.doc with modals := s.doc.modals.map (fun m =>
      if m.id = id then { m with opacity := "1", panelTransform := "scale(1)" } else m) } }

/-- Lines 382-392. -/
def closeModal (s : State) (id : Nat) : State :=
  setTimeout { s with doc := { s.doc with modals := s.doc.modals.map (fun m =>
      if m.id = id then { m with opacity := "0", panelTransform := "scale(0.9)" } else m) } }
    (.modalRemove id) 300

/-- Lines 387-391. -/
def modalRemove (s : State) (id : Nat) : State :=
  { s with doc := { s.doc with modals := s.doc.modals.filter (fun m => decide (m.id ≠ id)) } }

/-- Whether the modal is a child of `body`. -/
def modalInDocument (s : State) (id : Nat) : Bool :=
  s.doc.modals.any (fun m => decide (m.id = id))

/-- Whether the notification is a child of `body`. -/
def notificationInDocument (s : State) (id : Nat) : Bool :=
  s.doc.notifications.any (fun n => decide (n.id = id))

/-- The `closeOnEscape` listener of one modal, lines 372-377. -/
def closeOnEscape (s : State) (key : String) (id : Nat) : State :=
  if key = "Escape" then
    let s1 := closeModal s id
    { s1 with escapeListeners := s1.escapeListeners.erase id }
  else s

/-- Lines 395-402.  The title is plain text, the button is found. -/
def showAbout (s : State) : State :=
  showModal s
    ("<p>Anime Catalog - это современное веб-приложение для каталогизации и поиска аниме.</p>"
      ++ "<p>Проект создан с использованием Flask, HTML5, CSS3 и JavaScript.</p>"
      ++ "<p>Все данные взяты из официальных источников и не нарушают авторские права.</p>")
    "О проекте" true

/-- Lines 404-411. -/
def showPrivacy (s : State) : State :=
  showModal s
    ("<p>Мы уважаем вашу конфиденциальность и не собираем персональные данные.</p>"
      ++ "<p>Сайт использует только необходимые cookies для улучшения пользовательского опыта.</p>"
      ++ "<p>Все данные обрабатываются локально в вашем браузере.</p>")
    "Политика конфиденциальности" true

/-- Lines 413-420. -/
def showTerms (s : State) : State :=
  showModal s
    ("<p>Используя этот сайт, вы соглашаетесь с условиями использования.</p>"
      ++ "<p>Сайт предназначен только для информационных целей.</p>"
      ++ "<p>Мы не несем ответственности за любые внешние ссылки или контент.</p>")
    "Условия использования" true

/-! ## Events -/

/-- Where a click lands. -/
inductive ClickTarget where
  /-- the element `#mobileMenuBtn` or a descendant -/
  | menuButton
  /-- inside `.nav-list`, not on an anchor -/
  | navList
  | anchor (a : Anchor)
  | backToTop
  /-- the `.modal-close` button of a modal -/
  | modalClose (id : Nat)
  /-- the overlay of a modal itself -/
  | modalOverlay (id : Nat)
  /-- inside the panel of a modal, not on its close button -/
  | modalPanel (id : Nat)
  | elsewhere
  deriving DecidableEq, Repr

/-- The test `mobileMenuBtn.contains(target) || navList.contains(target)` of line 74. -/
def ClickTarget.inMenu : ClickTarget → Bool
  | .menuButton => true
  | .navList => true
  | .anchor a => a.inMenu
  | _ => false

/-- The listeners on the target of a click and on its ancestors below
`document`. -/
def clickTargetListeners (s : State) : ClickTarget → State
  | .menuButton => if s.menuListeners then menuToggle s else s
  | .anchor a =>
    if a ∈ s.anchorListeners then
      match anchorClick s a with
      | .ok s1 => s1
      | .error e => { s with errors := s.errors ++ [e] }
    else s
  | .backToTop =>
    if s.backToTopListeners then { s with scrollCalls := s.scrollCalls ++ [0] } else s
  | .modalClose id =>
    if id ∈ s.closeListeners ∧ modalInDocument s id = true then closeModal s id else s
  | .modalOverlay id =>
    if id ∈ s.closeListeners ∧ modalInDocument s id = true then closeModal s id else s
  | _ => s

/-- The click listener on `document`, lines 73-81. -/
def documentClick (s : State) (t : ClickTarget) : State :=
  if s.menuListeners ∧ t.inMenu = false then menuClose s else s

/-- A click: the listeners of the target, then the one on `document`. -/
def click (s : State) (t : ClickTarget) : State :=
  documentClick (clickTargetListeners s t) t

/-- The keydown listener of `initAccessibility`, lines 219-224. -/
def keyboardKeydown (s : State) (key : String) : State :=
  if s.keyboardListeners ∧ key = "Tab" then
    { s with doc := { s.doc with body := { s.doc.body with
        classes := classList.add s.doc.body.classes "keyboard-navigation" } } }
  else s

/-- A keydown: the listeners on `document` in the order of their registration. -/
def keydown (s : State) (key : String) : State :=
  let s1 := if s.menuListeners then menuKeydown s key else s
  let s2 := keyboardKeydown s1 key
  s2.escapeListeners.foldl (fun st id => closeOnEscape st key id) s2

/-- The mousedown listener, lines 227-229. -/
def mousedown (s : State) : State :=
  if s.keyboardListeners then
    { s with doc := { s.doc with body := { s.doc.body with
        classes := classList.remove s.doc.body.classes "keyboard-navigation" } } }
  else s

/-- The focus and blur listeners of the skip link, lines 202-208. -/
def skipLinkFocus (s : State) (focused : Bool) : State :=
  match s.doc.skipLinkTop with
  | some _ => { s with doc := { s.doc with
      skipLinkTop := some (if focused then "6px" else "-40px") } }
  | none => s

/-- A scroll event at offset `y`, up to the first scroll listener (line 105). -/
def scrollFirst (s : State) (y : Int) : State :=
  if s.backToTopListeners then backToTopScroll { s with pageYOffset := y }
  else { s with pageYOffset := y }

/-- A scroll event at offset `y`: both scroll listeners in the order of their
registration. -/
def scroll (s : State) (y : Int) : State :=
  if (scrollFirst s y).headerListener then headerScroll (scrollFirst s y)
  else scrollFirst s y

/-! ## The timer queue -/

/-- Run the callback of a timer. -/
def fire (s : State) : TimerAction → State
  | .loadHide => loadHide s
  | .loadFallback => loadFallback s
  | .loadRemove => loadRemove s
  | .notifyIn id => notifyIn s id
  | .notifyOut id => notifyOut s id
  | .notifyRemove id => notifyRemove s id
  | .modalIn id => modalIn s id
  | .modalRemove id => modalRemove s id

/-- The pending timer that fires next: least due time, first registered among
equals. -/
def earliest : List Timer → Option Timer
  | [] => none
  | t :: ts =>
    match earliest ts with
    | none => some t
    | some u => if u.due < t.due then some u else some t

/-- One more than the number of timers a callback can still set off. -/
def TimerAction.weight : TimerAction → Nat
  | .loadHide => 2
  | .loadFallback => 2
  | .notifyOut _ => 2
  | _ => 1

/-- Bound on the number of callbacks a queue can still run. -/
def queueWeight (ts : List Timer) : Nat :=
  (ts.map (fun t => t.action.weight)).sum

/-- Take the next timer off the queue and run it at its due time. -/
def fireNext (s : State) (t : Timer) : State :=
  fire { s with now := max s.now t.due, timers := s.timers.erase t } t.action

/-- Run the timers due up to time `target`, at most `fuel` of them, then set
the clock to `target`. -/
def runUntil : Nat → State → Nat → State
  | 0, s, target => { s with now := max s.now target }
  | fuel + 1, s, target =>
    match earliest s.timers with
    | none => { s with now := max s.now target }
    | some t =>
      if t.due ≤ target then runUntil fuel (fireNext s t) target
      else { s with now := max s.now target }

/-- Let `dt` milliseconds pass.  The fuel is enough for every timer that comes
due (`runUntil_induction`). -/
def advance (s : State) (dt : Nat) : State :=
  runUntil (queueWeight s.timers) s (s.now + dt)

/-! ## Runs -/

/-- What can happen to the page after initialisation. -/
inductive Event where
  | load
  | click (t : ClickTarget)
  | keydown (key : String)
  | mousedown
  | skipLinkFocus (focused : Bool)
  | scroll (y : Int)
  | showNotification (message type : String) (duration : Nat)
  | showModal (content title : String) (parsed : Bool)
  | closeModal (id : Nat)
  | showAbout
  | showPrivacy
  | showTerms
  | advance (dt : Nat)
  deriving DecidableEq, Repr

/-- The effect of one event. -/
def step (s : State) : Event → State
  | .load => onLoad s
  | .click t => click s t
  | .keydown key => keydown s key
  | .mousedown => mousedown s
  | .skipLinkFocus f => skipLinkFocus s f
  | .scroll y => scroll s y
  | .showNotification m t d => showNotification s m t d
  | .showModal c t b => showModal s c t b
  | .closeModal id => closeModal s id
  | .showAbout => showAbout s
  | .showPrivacy => showPrivacy s
  | .showTerms => showTerms s
  | .advance dt => advance s dt

/-- The effect of a sequence of events. -/
def run (s : State) (es : List Event) : State := es.foldl step s

/-! ## Views, invariants and sample pages -/

/-- The part of the page the menu listeners write. -/
def menuView (s : State) : Option MenuButton × Option (List String) × String :=
  (s.doc.mobileMenuBtn, s.doc.navList, s.doc.body.overflow)

/-- Button class, `aria-expanded` and scroll lock all follow the class of the
nav list. -/
def Mirrored : Option MenuButton × Option (List String) × String → Prop
  | (some b, some n, overflow) =>
    classList.contains b.classes "active" = classList.contains n "active" ∧
    b.ariaExpanded = some (if classList.contains n "active" then "true" else "false") ∧
    overflow = (if classList.contains n "active" then "hidden" else "")
  | _ => False

/-- The time that passes during a sequence of events. -/
def elapsed : List Event → Nat
  | [] => 0
  | .advance dt :: es => dt + elapsed es
  | _ :: es => elapsed es

/-- The instantaneous events: every event but the passing of time. -/
def Event.instant : Event → Bool
  | .advance _ => false
  | _ => true

/-- The second state has the same modals in the document, the same Escape
listeners and the same element counter as the first. -/
def ModalFrame (s r : State) : Prop :=
  r.nextId = s.nextId ∧ r.escapeListeners = s.escapeListeners ∧
    ∀ x, modalInDocument r x = modalInDocument s x

/-- The three ways of closing a modal, lines 363-377. -/
inductive ClosePath where
  /-- click on the `.modal-close` button -/
  | closeButton
  /-- click whose target is the overlay itself -/
  | overlay
  /-- keydown `Escape` -/
  | escape
  deriving DecidableEq, Repr

/-- The event that closes modal `m` along a path. -/
def ClosePath.event (m : Nat) : ClosePath → Event
  | .closeButton => .click (.modalClose m)
  | .overlay => .click (.modalOverlay m)
  | .escape => .keydown "Escape"

/-- The events that call `showModal`. -/
def Event.opensModal : Event → Bool
  | .showModal _ _ _ => true
  | .showAbout => true
  | .showPrivacy => true
  | .showTerms => true
  | _ => false

/-- Modal `m` has been created and is out of the document, or its removal is
pending and due by `T`.  `k = 1` between events (the removal is in the
future), `k = 0` while the timer queue runs. -/
def ModalLeaving (k m T : Nat) (s : State) : Prop :=
  m < s.nextId ∧ (modalInDocument s m = false ∨
    ∃ t ∈ s.timers, t.action = .modalRemove m ∧ s.now + k ≤ t.due ∧ t.due ≤ T)

/-- Modal `m` has been created and is out of the document, or its removal is
pending and due within 300 ms, or its three close listeners are registered. -/
def ModalOpen (k m : Nat) (s : State) : Prop :=
  m < s.nextId ∧ (modalInDocument s m = false ∨
    (∃ t ∈ s.timers, t.action = .modalRemove m ∧ s.now + k ≤ t.due ∧ t.due ≤ s.now + 300) ∨
    (m ∈ s.escapeListeners ∧ m ∈ s.closeListeners))

/-- The overlay, the notifications and the click listeners of the modals. -/
def overlayView (s : State) : Option Overlay × List Notification × List Nat :=
  (s.doc.loading, s.doc.notifications, s.closeListeners)

/-- Notification `id` has been created and is out of the document, or its
removal is pending and due by `T`, or its exit animation is pending and starts
at least 300 ms before `T`. -/
def NotificationLeaving (k id T : Nat) (s : State) : Prop :=
  id < s.nextId ∧ (notificationInDocument s id = false ∨
    (∃ t ∈ s.timers, t.action = .notifyRemove id ∧ s.now + k ≤ t.due ∧ t.due ≤ T) ∨
    (∃ t ∈ s.timers, t.action = .notifyOut id ∧ s.now ≤ t.due ∧ t.due + 300 ≤ T))

/-- The overlay is on its way out by time `T`: not yet hidden with the
fallback pending at least 300 ms before `T`, or hidden with its removal
pending and due by `T`, or hidden and out of the document. -/
def OverlayLeaving (k T : Nat) (s : State) : Prop :=
  ∃ o, s.doc.loading = some o ∧
    ((classList.contains o.classes "hidden" = false ∧
        ∃ t ∈ s.timers, t.action = .loadFallback ∧ s.now ≤ t.due ∧ t.due + 300 ≤ T) ∨
      (classList.contains o.classes "hidden" = true ∧
        ∃ t ∈ s.timers, t.action = .loadRemove ∧ s.now + k ≤ t.due ∧ t.due ≤ T) ∨
      (classList.contains o.classes "hidden" = true ∧ o.inDocument = false))

/-- A page with every element the script binds to. -/
def samplePage : Document :=
  { loading := some ⟨["loading-overlay"], true⟩
    mobileMenuBtn := some ⟨["mobile-menu-btn"], some "false", some "Открыть меню"⟩
    navList := some ["nav-list"]
    backToTop := some ["back-to-top"]
    header := some ⟨["site-header"], ""⟩
    siteHeader := some 64
    siteContent := some ""
    anchors := [⟨"#catalog", true⟩, ⟨"#", false⟩]
    matched := [("#catalog", 800)]
    body := ⟨"", []⟩
    skipLinkTop := none
    notifications := []
    modals := [] }

/-- The sample page after `DOMContentLoaded`. -/
def sampleState : State := domContentLoaded (State.ofDocument samplePage 0)

/-- The sample page with a toggle button that has no `aria-expanded` attribute
in the markup. -/
def plainButtonState : State :=
  domContentLoaded (State.ofDocument
    { samplePage with mobileMenuBtn := some ⟨["mobile-menu-btn"], none, none⟩ } 0)

/-- The sample page without an element of class `site-header`. -/
def noSiteHeaderState : State :=
  domContentLoaded (State.ofDocument { samplePage with siteHeader := none } 0)

/-- The sample page with an overlay that carries `hidden` in the markup. -/
def hiddenOverlayState : State :=
  domContentLoaded (State.ofDocument
    { samplePage with loading := some ⟨["loading-overlay", "hidden"], true⟩ } 0)

/-- The sample page after `showModal('text', '<!--')`: the comment that the
title opens runs to the end of the markup and takes the `.modal-close` button
in, so line 362 finds none. -/
def brokenTitleState : State := showModal sampleState "text" "<!--" false

/-- The sample page after a modal was opened, closed by its close button and
removed. -/
def afterModalState : State :=
  run sampleState [.showAbout, .advance 1000, .click (.modalClose 0), .advance 300]

/-! ## The timer queue: general facts -/

theorem earliest_eq_none {ts : List Timer} (h : earliest ts = none) : ts = [] := by
  cases ts with
  | nil => rfl
  | cons t ts =>
    simp only [earliest] at h
    split at h
    · cases h
    · split at h <;> cases h

theorem earliest_mem {ts : List Timer} {t : Timer} (h : earliest ts = some t) : t ∈ ts := by
  induction ts generalizing t with
  | nil => cases h
  | cons a ts ih =>
    simp only [earliest] at h
    split at h
    · cases h; exact List.mem_cons_self _ _
    · rename_i u hu
      split at h
      · cases h; exact List.mem_cons_of_mem _ (ih hu)
      · cases h; exact List.mem_cons_self _ _

theorem earliest_le {ts : List Timer} {t : Timer} (h : earliest ts = some t) :
    ∀ u ∈ ts, t.due ≤ u.due := by
  induction ts generalizing t with
  | nil => cases h
  | cons a ts ih =>
    intro u hu
    simp only [earliest] at h
    split at h
    · rename_i hn
      cases h
      have := earliest_eq_none hn
      subst this
      simp at hu
      subst hu
      exact le_refl _
    · rename_i v hv
      have hv2 := ih hv
      rcases List.mem_cons.mp hu with rfl | hmem
      · split at h
        · cases h; omega
        · cases h; exact le_refl _
      · have := hv2 u hmem
        split at h
        · cases h; exact this
        · cases h; omega

theorem weight_pos (a : TimerAction) : 0 < a.weight := by
  cases a <;> simp [TimerAction.weight]

theorem queueWeight_append (xs ys : List Timer) :
    queueWeight (xs ++ ys) = queueWeight xs + queueWeight ys := by
  simp [queueWeight]

theorem queueWeight_erase {ts : List Timer} {t : Timer} (h : t ∈ ts) :
    queueWeight (ts.erase t) + t.action.weight = queueWeight ts := by
  induction ts with
  | nil => cases h
  | cons a ts ih =>
    by_cases hat : a = t
    · subst hat
      simp [queueWeight]
      omega
    · have hmem : t ∈ ts := by
        rcases List.mem_cons.mp h with rfl | hm
        · exact absurd rfl hat
        · exact hm
      have := ih hmem
      rw [List.erase_cons_tail (by simpa using hat)]
      simp [queueWeight] at this ⊢
      omega

theorem queueWeight_eq_zero {ts : List Timer} (h : queueWeight ts = 0) : ts = [] := by
  cases ts with
  | nil => rfl
  | cons a ts =>
    have := weight_pos a.action
    simp [queueWeight] at h
    omega

/-- A callback keeps the pending timers and adds at most one, of smaller
weight, due 300 ms later. -/
theorem fire_timers (s : State) (a : TimerAction) :
    ∃ extra, (fire s a).timers = s.timers ++ extra ∧ queueWeight extra < a.weight ∧
      ∀ u ∈ extra, u.due = s.now + 300 := by
  cases a <;> simp only [fire, loadHide, loadFallback, loadRemove, notifyIn, notifyOut,
    notifyRemove, modalIn, modalRemove, setTimeout]
  · split
    · exact ⟨_, rfl, by simp [queueWeight, TimerAction.weight], by simp⟩
    · exact ⟨[], by simp, by simp [queueWeight, TimerAction.weight], by simp⟩
  · split
    · split
      · exact ⟨_, rfl, by simp [queueWeight, TimerAction.weight], by simp⟩
      · exact ⟨[], by simp, by simp [queueWeight, TimerAction.weight], by simp⟩
    · exact ⟨[], by simp, by simp [queueWeight, TimerAction.weight], by simp⟩
  · split <;> exact ⟨[], by simp, by simp [queueWeight, TimerAction.weight], by simp⟩
  · exact ⟨[], by simp, by simp [queueWeight, TimerAction.weight], by simp⟩
  · exact ⟨_, rfl, by simp [queueWeight, TimerAction.weight], by simp⟩
  · exact ⟨[], by simp, by simp [queueWeight, TimerAction.weight], by simp⟩
  · exact ⟨[], by simp, by simp [queueWeight, TimerAction.weight], by simp⟩
  · exact ⟨[], by simp, by simp [queueWeight, TimerAction.weight], by simp⟩

theorem fire_now (s : State) (a : TimerAction) : (fire s a).now = s.now := by
  cases a <;> simp only [fire, loadHide, loadFallback, loadRemove, notifyIn, notifyOut,
    notifyRemove, modalIn, modalRemove, setTimeout]
  · split <;> rfl
  · split
    · split <;> rfl
    · rfl
  · split <;> rfl

theorem fireNext_weight {s : State} {t : Timer} (h : t ∈ s.timers) :
    queueWeight (fireNext s t).timers < queueWeight s.timers := by
  obtain ⟨extra, he, hw, _⟩ :=
    fire_timers { s with now := max s.now t.due, timers := s.timers.erase t } t.action
  have := queueWeight_erase h
  simp only [fireNext, he, queueWeight_append]
  omega

/-- Induction over the run of the queue: a property kept by every callback
that runs holds of the state in which no timer is due any more, and the run
ends in that state with the clock set to the target. -/
theorem runUntil_induction (I : State → Prop) (target : Nat)
    (hstep : ∀ s t, I s → earliest s.timers = some t → t.due ≤ target → I (fireNext s t)) :
    ∀ fuel s, I s → queueWeight s.timers ≤ fuel →
      ∃ r, I r ∧ (∀ t ∈ r.timers, target < t.due) ∧
        runUntil fuel s target = { r with now := max r.now target } := by
  intro fuel
  induction fuel with
  | zero =>
    intro s hI hw
    have : s.timers = [] := queueWeight_eq_zero (Nat.le_zero.mp hw)
    exact ⟨s, hI, by simp [this], rfl⟩
  | succ n ih =>
    intro s hI hw
    simp only [runUntil]
    cases he : earliest s.timers with
    | none =>
      have : s.timers = [] := earliest_eq_none he
      exact ⟨s, hI, by simp [this], rfl⟩
    | some t =>
      by_cases hd : t.due ≤ target
      · simp only [hd, if_true]
        have hlt := fireNext_weight (earliest_mem he)
        exact ih (fireNext s t) (hstep s t hI he hd) (by omega)
      · simp only [hd, if_false]
        refine ⟨s, hI, ?_, rfl⟩
        intro u hu
        have := earliest_le he u hu
        omega

/-- The form of `runUntil_induction` for `advance`. -/
theorem advance_induction (I : State → Prop) (s : State) (dt : Nat)
    (hstep : ∀ s1 t, I s1 → earliest s1.timers = some t → t.due ≤ s.now + dt →
      I (fireNext s1 t))
    (h : I s) :
    ∃ r, I r ∧ (∀ t ∈ r.timers, s.now + dt < t.due) ∧
      advance s dt = { r with now := max r.now (s.now + dt) } :=
  runUntil_induction I (s.now + dt) hstep _ s h (le_refl _)

/-! ## What `showModal` writes -/

theorem showModal_frame (s : State) (c t : String) (b : Bool) :
    menuView (showModal s c t b) = menuView s ∧
    (showModal s c t b).doc.loading = s.doc.loading ∧
    (showModal s c t b).doc.notifications = s.doc.notifications ∧
    (showModal s c t b).now = s.now ∧
    (showModal s c t b).nextId = s.nextId + 1 ∧
    (showModal s c t b).timers = s.timers ++ [⟨s.now + 10, .modalIn s.nextId⟩] ∧
    (showModal s c t b).doc.modals =
      s.doc.modals ++ [⟨s.nextId, t, c, "0", "scale(0.9)"⟩] ∧
    (∀ m ∈ s.escapeListeners, m ∈ (showModal s c t b).escapeListeners) ∧
    (∀ m ∈ s.closeListeners, m ∈ (showModal s c t b).closeListeners) := by
  unfold showModal
  cases closeButtonFound t b
  · exact ⟨rfl, rfl, rfl, rfl, rfl, rfl, rfl, fun _ h => h, fun _ h => h⟩
  · exact ⟨rfl, rfl, rfl, rfl, rfl, rfl, rfl, fun _ h => List.mem_append_left _ h,
      fun _ h => List.mem_append_left _ h⟩

/-- When the close button is found, the three close listeners of the new modal
are registered. -/
theorem showModal_listeners (s : State) (c t : String) (b : Bool)
    (h : closeButtonFound t b = true) :
    s.nextId ∈ (showModal s c t b).escapeListeners ∧
    s.nextId ∈ (showModal s c t b).closeListeners := by
  unfold showModal
  rw [h]
  exact ⟨List.mem_append_right _ (List.mem_singleton_self _),
    List.mem_append_right _ (List.mem_singleton_self _)⟩

/-! ## Class lists -/

theorem contains_add (c : List String) (t : String) :
    classList.contains (classList.add c t) t = true := by
  unfold classList.add
  split
  · assumption
  · simp [classList.contains]

theorem contains_remove (c : List String) (t : String) :
    classList.contains (classList.remove c t) t = false := by
  simp [classList.contains, classList.remove]

theorem contains_toggle (c : List String) (t : String) :
    classList.contains (classList.toggle c t) t = !classList.contains c t := by
  unfold classList.toggle
  split
  · rename_i h
    rw [contains_remove, h]
    rfl
  · rename_i h
    rw [contains_add]
    cases hc : classList.contains c t
    · rfl
    · exact absurd hc h

theorem add_add (c : List String) (t : String) :
    classList.add (classList.add c t) t = classList.add c t := by
  have h := contains_add c t
  generalize classList.add c t = d at h ⊢
  simp [classList.add, h]

theorem remove_remove (c : List String) (t : String) :
    classList.remove (classList.remove c t) t = classList.remove c t := by
  simp [classList.remove]

/-! ## Back to top -/

theorem headerScroll_backToTop (s : State) :
    (headerScroll s).backToTopListeners = s.backToTopListeners ∧
    (headerScroll s).pageYOffset = s.pageYOffset ∧
    (headerScroll s).doc.backToTop = s.doc.backToTop := by
  unfold headerScroll
  split <;> exact ⟨rfl, rfl, rfl⟩

theorem scroll_backToTop (s : State) (c : List String) (y : Int)
    (hl : s.backToTopListeners = true) (hb : s.doc.backToTop = some c) :
    (scroll s y).backToTopListeners = true ∧ (scroll s y).pageYOffset = y ∧
    (scroll s y).doc.backToTop =
      some (if y > 300 then classList.add c "visible" else classList.remove c "visible") := by
  have h1 : (scrollFirst s y).backToTopListeners = true ∧ (scrollFirst s y).pageYOffset = y ∧
      (scrollFirst s y).doc.backToTop =
        some (if y > 300 then classList.add c "visible" else classList.remove c "visible") := by
    simp only [scrollFirst, hl, if_true, backToTopScroll, hb]
    by_cases hy : y > 300 <;> simp [hy, hl]
  unfold scroll
  split
  · obtain ⟨a, b, c⟩ := headerScroll_backToTop (scrollFirst s y)
    rw [a, b, c]
    exact h1
  · exact h1

theorem run_scroll_backToTop (ys : List Int) :
    ∀ (s : State) (c : List String), s.backToTopListeners = true → s.doc.backToTop = some c →
      ∃ c1, (run s (ys.map Event.scroll)).backToTopListeners = true ∧
        (run s (ys.map Event.scroll)).doc.backToTop = some c1 := by
  induction ys with
  | nil => intro s c hl hb; exact ⟨c, hl, hb⟩
  | cons y ys ih =>
    intro s c hl hb
    obtain ⟨h1, _, h3⟩ := scroll_backToTop s c y hl hb
    exact ih (scroll s y) _ h1 h3

theorem run_append (s : State) (xs ys : List Event) :
    run s (xs ++ ys) = run (run s xs) ys := by
  simp [run, List.foldl_append]

/-- C7: after the scroll listener of the button has processed a sequence of
offsets, the button carries `visible` exactly when the last offset is above
300, whatever the earlier offsets were; processing that offset again changes
nothing. -/
theorem backToTop_visible_iff (s : State) (c : List String)
    (hl : s.backToTopListeners = true) (hb : s.doc.backToTop = some c)
    (ys : List Int) (y : Int) :
    ∃ c1, (run s ((ys ++ [y]).map Event.scroll)).doc.backToTop = some c1 ∧
      (classList.contains c1 "visible" = true ↔ y > 300) ∧
      backToTopScroll (run s ((ys ++ [y]).map Event.scroll)) =
        run s ((ys ++ [y]).map Event.scroll) ∧
      (scroll (run s ((ys ++ [y]).map Event.scroll)) y).doc.backToTop = some c1 := by
  obtain ⟨c0, hl0, hb0⟩ := run_scroll_backToTop ys s c hl hb
  have hrun : run s ((ys ++ [y]).map Event.scroll) = scroll (run s (ys.map Event.scroll)) y := by
    rw [List.map_append, run_append]
    rfl
  obtain ⟨h1, h2, h3⟩ := scroll_backToTop _ c0 y hl0 hb0
  rw [hrun]
  obtain ⟨_, _, h6⟩ := scroll_backToTop _ _ y h1 h3
  refine ⟨_, h3, ?_, ?_, ?_⟩
  · by_cases hy : y > 300
    · simp [hy, contains_add]
    · simp [hy, contains_remove]
  · generalize scroll (run s (ys.map Event.scroll)) y = r at h2 h3
    obtain ⟨d, p⟩ := r
    simp only at h2 h3
    subst h2
    simp only [backToTopScroll, h3]
    by_cases hy : p > 300
    · simp only [hy, if_true, add_add] at h3 ⊢
      cases d
      simp only at h3
      subst h3
      rfl
    · simp only [hy, if_false, remove_remove] at h3 ⊢
      cases d
      simp only at h3
      subst h3
      rfl
  · rw [h6]
    by_cases hy : y > 300
    · simp only [hy, if_true, add_add]
    · simp only [hy, if_false, remove_remove]

/-! ## Header -/

theorem backToTopScroll_frame (s : State) :
    (backToTopScroll s).headerListener = s.headerListener ∧
    (backToTopScroll s).doc.header = s.doc.header ∧
    (backToTopScroll s).pageYOffset = s.pageYOffset ∧
    (backToTopScroll s).lastScrollY = s.lastScrollY := by
  unfold backToTopScroll
  split
  · split <;> exact ⟨rfl, rfl, rfl, rfl⟩
  · exact ⟨rfl, rfl, rfl, rfl⟩

/-- The state the header listener sees within a scroll event. -/
theorem scrollFirst_frame (s : State) (y : Int) :
    (scrollFirst s y).headerListener = s.headerListener ∧
    (scrollFirst s y).doc.header = s.doc.header ∧
    (scrollFirst s y).pageYOffset = y ∧
    (scrollFirst s y).lastScrollY = s.lastScrollY := by
  unfold scrollFirst
  split
  · obtain ⟨a, b, c, d⟩ := backToTopScroll_frame { s with pageYOffset := y }
    exact ⟨a, b, c, d⟩
  · exact ⟨rfl, rfl, rfl, rfl⟩

/-- C9: on a scroll event at offset `c` with recorded offset `p`, the header
carries `scrolled` exactly when `c > 10`; its transform is `translateY(-100%)`
when `c > p` and `c > 100`, and `translateY(0)` when `c < p`; `c` becomes the
recorded offset.  The class does not depend on the recorded offset or the old
transform, and the transform does not depend on the classes. -/
theorem headerScroll_effects (s : State) (h : Header) (c : Int)
    (hl : s.headerListener = true) (hh : s.doc.header = some h) :
    ∃ h1, (scroll s c).doc.header = some h1 ∧
      (classList.contains h1.classes "scrolled" = true ↔ c > 10) ∧
      (c > s.lastScrollY ∧ c > 100 → h1.transform = "translateY(-100%)") ∧
      (c < s.lastScrollY → h1.transform = "translateY(0)") ∧
      (scroll s c).lastScrollY = c ∧
      ∀ (s2 : State) (h2 : Header), s2.headerListener = true → s2.doc.header = some h2 →
        ∃ h3, (scroll s2 c).doc.header = some h3 ∧
          (h2.classes = h.classes → h3.classes = h1.classes) ∧
          (s2.lastScrollY = s.lastScrollY → h3.transform = h1.transform) := by
  have key : ∀ (r : State) (g : Header), r.headerListener = true → r.doc.header = some g →
      (scroll r c).doc.header = some
        { classes := if c > 10 then classList.add g.classes "scrolled"
            else classList.remove g.classes "scrolled"
          transform := if c > r.lastScrollY ∧ c > 100 then "translateY(-100%)"
            else "translateY(0)" } ∧
      (scroll r c).lastScrollY = c := by
    intro r g hr hg
    obtain ⟨f1, f2, f3, f4⟩ := scrollFirst_frame r c
    unfold scroll
    rw [if_pos (f1.trans hr)]
    generalize scrollFirst r c = s1 at f1 f2 f3 f4
    simp [headerScroll, f2, hg, f3, f4]
  obtain ⟨k1, k2⟩ := key s h hl hh
  refine ⟨_, k1, ?_, ?_, ?_, k2, ?_⟩
  · by_cases hc : c > 10
    · simp [hc, contains_add]
    · simp [hc, contains_remove]
  · intro hc
    simp [hc]
  · intro hc
    have : ¬ (c > s.lastScrollY) := by omega
    simp [this]
  · intro s2 h2 hl2 hh2
    obtain ⟨k3, _⟩ := key s2 h2 hl2 hh2
    refine ⟨_, k3, ?_, ?_⟩
    · intro e
      simp [e]
    · intro e
      simp [e]

/-! ## Mobile menu -/

theorem mirrored_menuToggle (s : State) (h : Mirrored (menuView s)) :
    Mirrored (menuView (menuToggle s)) := by
  unfold menuView at h
  unfold menuToggle menuView
  cases hb : s.doc.mobileMenuBtn with
  | none => rw [hb] at h; exact h.elim
  | some b =>
    cases hn : s.doc.navList with
    | none => rw [hb, hn] at h; exact h.elim
    | some n =>
      rw [hb, hn] at h
      obtain ⟨h1, _, _⟩ := h
      simp only [Mirrored, contains_toggle, h1, true_and]
      cases classList.contains n "active" <;> simp

theorem mirrored_menuClose (s : State) (h : Mirrored (menuView s)) :
    Mirrored (menuView (menuClose s)) := by
  unfold menuView at h
  unfold menuClose menuView
  cases hb : s.doc.mobileMenuBtn with
  | none => rw [hb] at h; exact h.elim
  | some b =>
    cases hn : s.doc.navList with
    | none => rw [hb, hn] at h; exact h.elim
    | some n =>
      simp [Mirrored, contains_remove]

theorem menuView_fire (s : State) (a : TimerAction) : menuView (fire s a) = menuView s := by
  cases a <;> simp only [fire, loadHide, loadFallback, loadRemove, notifyIn, notifyOut,
    notifyRemove, modalIn, modalRemove, setTimeout, menuView]
  · split <;> rfl
  · split
    · split <;> rfl
    · rfl
  · split <;> rfl

theorem menuView_advance (s : State) (dt : Nat) : menuView (advance s dt) = menuView s := by
  obtain ⟨r, hr, _, he⟩ := advance_induction (fun r => menuView r = menuView s) s dt
    (by
      intro s1 t h1 _ _
      rw [fireNext, menuView_fire]
      exact h1)
    rfl
  rw [he]
  exact hr

theorem menuView_closeModal (s : State) (id : Nat) :
    menuView (closeModal s id) = menuView s := rfl

theorem menuView_showModal (s : State) (c t : String) (b : Bool) :
    menuView (showModal s c t b) = menuView s := (showModal_frame s c t b).1

theorem menuView_closeOnEscape (s : State) (key : String) (id : Nat) :
    menuView (closeOnEscape s key id) = menuView s := by
  unfold closeOnEscape
  split <;> rfl

theorem menuView_foldl_closeOnEscape (key : String) (ids : List Nat) :
    ∀ s : State, menuView (ids.foldl (fun st id => closeOnEscape st key id) s) = menuView s := by
  induction ids with
  | nil => intro s; rfl
  | cons id ids ih =>
    intro s
    rw [List.foldl_cons, ih, menuView_closeOnEscape]

theorem menuView_keyboardKeydown (s : State) (key : String) :
    menuView (keyboardKeydown s key) = menuView s := by
  unfold keyboardKeydown
  split <;> rfl

theorem menuView_backToTopScroll (s : State) : menuView (backToTopScroll s) = menuView s := by
  unfold backToTopScroll
  split
  · split <;> rfl
  · rfl

theorem menuView_headerScroll (s : State) : menuView (headerScroll s) = menuView s := by
  unfold headerScroll
  split <;> rfl

theorem menuView_scroll (s : State) (y : Int) : menuView (scroll s y) = menuView s := by
  have h1 : menuView (scrollFirst s y) = menuView s := by
    unfold scrollFirst
    split
    · rw [menuView_backToTopScroll]
      rfl
    · rfl
  unfold scroll
  split
  · rw [menuView_headerScroll, h1]
  · exact h1

/-- An anchor click that does not throw changes the log of scroll calls only. -/
theorem anchorClick_ok {s s1 : State} {a : Anchor} (h : anchorClick s a = .ok s1) :
    ∃ calls, s1 = { s with scrollCalls := calls } := by
  unfold anchorClick at h
  split at h
  · cases h
  · cases h
    exact ⟨s.scrollCalls, rfl⟩
  · split at h
    · cases h
    · cases h
      exact ⟨_, rfl⟩

theorem menuView_clickTargetListeners (s : State) (t : ClickTarget)
    (h : Mirrored (menuView s)) : Mirrored (menuView (clickTargetListeners s t)) := by
  cases t <;> simp only [clickTargetListeners]
  · split
    · exact mirrored_menuToggle s h
    · exact h
  · exact h
  · split
    · split
      · rename_i s1 he
        obtain ⟨calls, hc⟩ := anchorClick_ok he
        rw [hc]
        exact h
      · exact h
    · exact h
  · split <;> exact h
  · split <;> exact h
  · split <;> exact h
  · exact h
  · exact h

theorem mirrored_step (s : State) (e : Event) (h : Mirrored (menuView s)) :
    Mirrored (menuView (step s e)) := by
  cases e with
  | load =>
    simp only [step, onLoad]
    split <;> exact h
  | click t =>
    simp only [step, click, documentClick]
    have h1 := menuView_clickTargetListeners s t h
    split
    · exact mirrored_menuClose _ h1
    · exact h1
  | keydown key =>
    simp only [step, keydown]
    rw [menuView_foldl_closeOnEscape, menuView_keyboardKeydown]
    split
    · unfold menuKeydown
      split
      · exact mirrored_menuClose _ h
      · exact h
    · exact h
  | mousedown =>
    simp only [step, mousedown]
    split <;> exact h
  | skipLinkFocus f =>
    simp only [step, skipLinkFocus]
    split <;> exact h
  | scroll y =>
    simp only [step]
    rw [menuView_scroll]
    exact h
  | showNotification m t d => exact h
  | showModal c t b =>
    simp only [step]
    rw [menuView_showModal]
    exact h
  | closeModal id => exact h
  | showAbout => exact h
  | showPrivacy => exact h
  | showTerms => exact h
  | advance dt =>
    simp only [step]
    rw [menuView_advance]
    exact h

theorem mirrored_run (es : List Event) :
    ∀ s : State, Mirrored (menuView s) → Mirrored (menuView (run s es)) := by
  induction es with
  | nil => intro s h; exact h
  | cons e es ih => intro s h; exact ih (step s e) (mirrored_step s e h)

/-- C10: from the closed state, after every sequence of events (clicks on the
toggle button, clicks elsewhere, Escape and any other key, and every other
event of the page) the nav list has `active` exactly when the button has it,
exactly when `aria-expanded` is `true`, exactly when the overflow of `body`
is `hidden`. -/
theorem menu_state_mirrored (s : State) (b : MenuButton) (n : List String)
    (hb : s.doc.mobileMenuBtn = some b) (hn : s.doc.navList = some n)
    (h1 : classList.contains n "active" = false)
    (h2 : classList.contains b.classes "active" = false)
    (h3 : b.ariaExpanded = some "false") (h4 : s.doc.body.overflow = "")
    (es : List Event) :
    ∃ b1 n1, (run s es).doc.mobileMenuBtn = some b1 ∧ (run s es).doc.navList = some n1 ∧
      (classList.contains n1 "active" = true ↔ classList.contains b1.classes "active" = true) ∧
      (classList.contains n1 "active" = true ↔ b1.ariaExpanded = some "true") ∧
      (classList.contains n1 "active" = true ↔ (run s es).doc.body.overflow = "hidden") := by
  have h0 : Mirrored (menuView s) := by
    simp [menuView, hb, hn, Mirrored, h1, h2, h3, h4]
  have h := mirrored_run es s h0
  unfold menuView at h
  cases hb1 : (run s es).doc.mobileMenuBtn with
  | none => rw [hb1] at h; exact h.elim
  | some b1 =>
    cases hn1 : (run s es).doc.navList with
    | none => rw [hb1, hn1] at h; exact h.elim
    | some n1 =>
      rw [hb1, hn1] at h
      obtain ⟨k1, k2, k3⟩ := h
      refine ⟨b1, n1, rfl, rfl, ?_, ?_, ?_⟩
      · rw [k1]
      · rw [k2]
        cases classList.contains n1 "active" <;> simp
      · rw [k3]
        cases classList.contains n1 "active" <;> simp

/-! ## Time and pending timers along a run -/

theorem fireNext_now (s : State) (t : Timer) : (fireNext s t).now = max s.now t.due := by
  rw [fireNext, fire_now]

theorem fireNext_mem {s : State} {t u : Timer} (hu : u ∈ s.timers) (hne : u ≠ t) :
    u ∈ (fireNext s t).timers := by
  obtain ⟨extra, he, _, _⟩ :=
    fire_timers { s with now := max s.now t.due, timers := s.timers.erase t } t.action
  rw [fireNext, he]
  exact List.mem_append_left _ ((List.mem_erase_of_ne hne).mpr hu)

/-- A property that every callback keeps, and that the passing of time
sharpens from `P` to `Q` once no timer is due, is kept by `advance`. -/
theorem advance_preserves (P Q : State → Prop) (s : State) (dt : Nat)
    (h0 : Q s → P s)
    (hstep : ∀ r t, P r → earliest r.timers = some t → P (fireNext r t))
    (hend : ∀ r target, P r → (∀ t ∈ r.timers, target < t.due) → r.now ≤ target →
      Q { r with now := target })
    (h : Q s) : Q (advance s dt) := by
  obtain ⟨r, ⟨hP, hn⟩, hdue, he⟩ :=
    advance_induction (fun r => P r ∧ r.now ≤ s.now + dt) s dt
      (by
        intro r t ⟨hP, hn⟩ het hd
        refine ⟨hstep r t hP het, ?_⟩
        rw [fireNext_now]
        exact max_le hn hd)
      ⟨h0 h, Nat.le_add_right _ _⟩
  rw [he, max_eq_right hn]
  exact hend r _ hP hdue hn

theorem advance_now (s : State) (dt : Nat) : (advance s dt).now = s.now + dt := by
  obtain ⟨r, hn, _, he⟩ :=
    advance_induction (fun r => r.now ≤ s.now + dt) s dt
      (by
        intro r t hn _ hd
        rw [fireNext_now]
        exact max_le hn hd)
      (Nat.le_add_right _ _)
  rw [he]
  exact max_eq_right hn

theorem closeOnEscape_now_timers (s : State) (key : String) (id : Nat) :
    (closeOnEscape s key id).now = s.now ∧
    ∀ u ∈ s.timers, u ∈ (closeOnEscape s key id).timers := by
  unfold closeOnEscape
  split
  · refine ⟨rfl, ?_⟩
    intro u hu
    simp [closeModal, setTimeout, hu]
  · exact ⟨rfl, fun _ hu => hu⟩

theorem foldl_closeOnEscape_now_timers (key : String) (ids : List Nat) :
    ∀ s : State, (ids.foldl (fun st id => closeOnEscape st key id) s).now = s.now ∧
      ∀ u ∈ s.timers, u ∈ (ids.foldl (fun st id => closeOnEscape st key id) s).timers := by
  induction ids with
  | nil => intro s; exact ⟨rfl, fun _ hu => hu⟩
  | cons id ids ih =>
    intro s
    obtain ⟨h1, h2⟩ := closeOnEscape_now_timers s key id
    obtain ⟨h3, h4⟩ := ih (closeOnEscape s key id)
    rw [List.foldl_cons]
    exact ⟨h3.trans h1, fun u hu => h4 u (h2 u hu)⟩

theorem menuToggle_now_timers (s : State) :
    (menuToggle s).now = s.now ∧ (menuToggle s).timers = s.timers := by
  unfold menuToggle
  split <;> exact ⟨rfl, rfl⟩

theorem menuClose_now_timers (s : State) :
    (menuClose s).now = s.now ∧ (menuClose s).timers = s.timers := by
  unfold menuClose
  split <;> exact ⟨rfl, rfl⟩

theorem clickTargetListeners_now_timers (s : State) (t : ClickTarget) :
    (clickTargetListeners s t).now = s.now ∧
    ∀ u ∈ s.timers, u ∈ (clickTargetListeners s t).timers := by
  cases t <;> simp only [clickTargetListeners]
  · split
    · obtain ⟨h1, h2⟩ := menuToggle_now_timers s
      rw [h1, h2]
      exact ⟨rfl, fun _ hu => hu⟩
    · exact ⟨rfl, fun _ hu => hu⟩
  · exact ⟨trivial, fun _ hu => hu⟩
  · split
    · split
      · rename_i s1 he
        obtain ⟨calls, hc⟩ := anchorClick_ok he
        rw [hc]
        exact ⟨rfl, fun _ hu => hu⟩
      · exact ⟨rfl, fun _ hu => hu⟩
    · exact ⟨rfl, fun _ hu => hu⟩
  · split <;> exact ⟨rfl, fun _ hu => hu⟩
  · split
    · refine ⟨rfl, ?_⟩
      intro u hu
      simp [closeModal, setTimeout, hu]
    · exact ⟨rfl, fun _ hu => hu⟩
  · split
    · refine ⟨rfl, ?_⟩
      intro u hu
      simp [closeModal, setTimeout, hu]
    · exact ⟨rfl, fun _ hu => hu⟩
  · exact ⟨trivial, fun _ hu => hu⟩
  · exact ⟨trivial, fun _ hu => hu⟩

/-- An instantaneous event leaves the clock alone and cancels no timer. -/
theorem step_now_timers (s : State) (e : Event) (hi : e.instant = true) :
    (step s e).now = s.now ∧ ∀ u ∈ s.timers, u ∈ (step s e).timers := by
  cases e with
  | load =>
    simp only [step, onLoad]
    split
    · exact ⟨rfl, fun u hu => by simp [setTimeout, hu]⟩
    · exact ⟨rfl, fun _ hu => hu⟩
  | click t =>
    simp only [step, click, documentClick]
    obtain ⟨h1, h2⟩ := clickTargetListeners_now_timers s t
    split
    · obtain ⟨h3, h4⟩ := menuClose_now_timers (clickTargetListeners s t)
      rw [h3, h4]
      exact ⟨h1, h2⟩
    · exact ⟨h1, h2⟩
  | keydown key =>
    simp only [step, keydown]
    obtain ⟨h1, h2⟩ := foldl_closeOnEscape_now_timers key
      (keyboardKeydown (if s.menuListeners = true then menuKeydown s key else s) key).escapeListeners
      (keyboardKeydown (if s.menuListeners = true then menuKeydown s key else s) key)
    have h3 : ∀ r : State, (keyboardKeydown r key).now = r.now ∧
        (keyboardKeydown r key).timers = r.timers := by
      intro r
      unfold keyboardKeydown
      split <;> exact ⟨rfl, rfl⟩
    have h4 : (if s.menuListeners = true then menuKeydown s key else s).now = s.now ∧
        (if s.menuListeners = true then menuKeydown s key else s).timers = s.timers := by
      split
      · unfold menuKeydown
        split
        · exact menuClose_now_timers s
        · exact ⟨rfl, rfl⟩
      · exact ⟨rfl, rfl⟩
    rw [(h3 _).1, h4.1] at h1
    rw [(h3 _).2, h4.2] at h2
    exact ⟨h1, h2⟩
  | mousedown =>
    simp only [step, mousedown]
    split <;> exact ⟨rfl, fun _ hu => hu⟩
  | skipLinkFocus f =>
    simp only [step, skipLinkFocus]
    split <;> exact ⟨rfl, fun _ hu => hu⟩
  | scroll y =>
    simp only [step, scroll, scrollFirst, backToTopScroll, headerScroll]
    repeat' split
    all_goals exact ⟨rfl, fun _ hu => hu⟩
  | showNotification m t d =>
    exact ⟨rfl, fun u hu => by simp [step, showNotification, setTimeout, hu]⟩
  | showModal c t b =>
    obtain ⟨_, _, _, f3, _, f5, _⟩ := showModal_frame s c t b
    refine ⟨f3, fun u hu => ?_⟩
    show u ∈ (showModal s c t b).timers
    rw [f5]
    exact List.mem_append_left _ hu
  | closeModal id =>
    exact ⟨rfl, fun u hu => by simp [step, closeModal, setTimeout, hu]⟩
  | showAbout =>
    obtain ⟨_, _, _, f3, _, f5, _⟩ := showModal_frame s _ _ true
    refine ⟨f3, fun u hu => ?_⟩
    show u ∈ (showAbout s).timers
    unfold showAbout
    rw [f5]
    exact List.mem_append_left _ hu
  | showPrivacy =>
    obtain ⟨_, _, _, f3, _, f5, _⟩ := showModal_frame s _ _ true
    refine ⟨f3, fun u hu => ?_⟩
    show u ∈ (showPrivacy s).timers
    unfold showPrivacy
    rw [f5]
    exact List.mem_append_left _ hu
  | showTerms =>
    obtain ⟨_, _, _, f3, _, f5, _⟩ := showModal_frame s _ _ true
    refine ⟨f3, fun u hu => ?_⟩
    show u ∈ (showTerms s).timers
    unfold showTerms
    rw [f5]
    exact List.mem_append_left _ hu
  | advance dt => cases hi

theorem run_now (es : List Event) : ∀ s : State, (run s es).now = s.now + elapsed es := by
  induction es with
  | nil => intro s; rfl
  | cons e es ih =>
    intro s
    show (run (step s e) es).now = _
    rw [ih]
    by_cases hi : e.instant = true
    · rw [(step_now_timers s e hi).1]
      cases e <;> first | rfl | cases hi
    · cases e <;> first | exact absurd rfl hi | skip
      rename_i dt
      show (advance s dt).now + elapsed es = s.now + (dt + elapsed es)
      rw [advance_now]
      omega

/-- A property kept by every instantaneous event and by the passing of time
holds along every run. -/
theorem run_preserves (Q : State → Prop)
    (hevent : ∀ s e, e.instant = true → Q s → Q (step s e))
    (hadvance : ∀ s dt, Q s → Q (advance s dt)) :
    ∀ (es : List Event) (s : State), Q s → Q (run s es) := by
  intro es
  induction es with
  | nil => intro s h; exact h
  | cons e es ih =>
    intro s h
    show Q (run (step s e) es)
    apply ih
    by_cases hi : e.instant = true
    · exact hevent s e hi h
    · cases e <;> first | exact absurd rfl hi | skip
      rename_i dt
      exact hadvance s dt h

/-! ## Modals -/

theorem modalInDocument_iff (s : State) (x : Nat) :
    modalInDocument s x = true ↔ x ∈ s.doc.modals.map (fun m => m.id) := by
  simp only [modalInDocument, List.any_eq_true, decide_eq_true_eq, List.mem_map]

theorem modalIds_map (ms : List Modal) (f : Modal → Modal) (hf : ∀ m, (f m).id = m.id) :
    (ms.map f).map (fun m => m.id) = ms.map (fun m => m.id) := by
  simp [List.map_map, Function.comp_def, hf]

theorem closeModal_modalInDocument (s : State) (id x : Nat) :
    modalInDocument (closeModal s id) x = modalInDocument s x := by
  have h : (closeModal s id).doc.modals.map (fun m => m.id) = s.doc.modals.map (fun m => m.id) := by
    simp only [closeModal, setTimeout]
    apply modalIds_map
    intro m
    split <;> rfl
  rw [Bool.eq_iff_iff, modalInDocument_iff, modalInDocument_iff, h]

theorem modalIn_modalInDocument (s : State) (id x : Nat) :
    modalInDocument (modalIn s id) x = modalInDocument s x := by
  have h : (modalIn s id).doc.modals.map (fun m => m.id) = s.doc.modals.map (fun m => m.id) := by
    simp only [modalIn]
    apply modalIds_map
    intro m
    split <;> rfl
  rw [Bool.eq_iff_iff, modalInDocument_iff, modalInDocument_iff, h]

theorem modalRemove_modalInDocument (s : State) (id x : Nat) :
    modalInDocument (modalRemove s id) x = true ↔ modalInDocument s x = true ∧ x ≠ id := by
  simp only [modalInDocument, modalRemove, List.any_eq_true, decide_eq_true_eq, List.mem_filter]
  constructor
  · rintro ⟨m, ⟨hm, hne⟩, rfl⟩
    exact ⟨⟨m, hm, rfl⟩, hne⟩
  · rintro ⟨⟨m, hm, rfl⟩, hne⟩
    exact ⟨m, ⟨hm, hne⟩, rfl⟩

/-- A callback creates no element and touches no listener; it can only take
modals out of the document. -/
theorem fire_modal (s : State) (a : TimerAction) :
    (fire s a).nextId = s.nextId ∧ (fire s a).escapeListeners = s.escapeListeners ∧
    ∀ x, modalInDocument (fire s a) x = true → modalInDocument s x = true := by
  cases a <;> simp only [fire]
  · unfold loadHide
    split <;> exact ⟨rfl, rfl, fun _ h => h⟩
  · unfold loadFallback
    split
    · split <;> exact ⟨rfl, rfl, fun _ h => h⟩
    · exact ⟨rfl, rfl, fun _ h => h⟩
  · unfold loadRemove
    split <;> exact ⟨rfl, rfl, fun _ h => h⟩
  · exact ⟨rfl, rfl, fun _ h => h⟩
  · exact ⟨rfl, rfl, fun _ h => h⟩
  · exact ⟨rfl, rfl, fun _ h => h⟩
  · refine ⟨rfl, rfl, fun x h => ?_⟩
    rw [modalIn_modalInDocument] at h
    exact h
  · refine ⟨rfl, rfl, fun x h => ?_⟩
    exact ((modalRemove_modalInDocument s _ x).mp h).1

theorem fireNext_modal (s : State) (t : Timer) :
    (fireNext s t).nextId = s.nextId ∧ (fireNext s t).escapeListeners = s.escapeListeners ∧
    ∀ x, modalInDocument (fireNext s t) x = true → modalInDocument s x = true :=
  fire_modal { s with now := max s.now t.due, timers := s.timers.erase t } t.action

theorem modalRemove_gone (s : State) (m : Nat) :
    modalInDocument (modalRemove s m) m = false := by
  cases hc : modalInDocument (modalRemove s m) m with
  | false => rfl
  | true => exact absurd rfl ((modalRemove_modalInDocument _ m m).mp hc).2

theorem fireNext_modalRemove (s : State) (t : Timer) (m : Nat) (h : t.action = .modalRemove m) :
    modalInDocument (fireNext s t) m = false := by
  rw [fireNext, h]
  exact modalRemove_gone _ m

theorem ModalFrame.refl (s : State) : ModalFrame s s := ⟨rfl, rfl, fun _ => rfl⟩

theorem ModalFrame.trans {s r q : State} (h1 : ModalFrame s r) (h2 : ModalFrame r q) :
    ModalFrame s q :=
  ⟨h2.1.trans h1.1, h2.2.1.trans h1.2.1, fun x => (h2.2.2 x).trans (h1.2.2 x)⟩

theorem modalFrame_menuToggle (s : State) : ModalFrame s (menuToggle s) := by
  unfold menuToggle
  split <;> exact ⟨rfl, rfl, fun _ => rfl⟩

theorem modalFrame_menuClose (s : State) : ModalFrame s (menuClose s) := by
  unfold menuClose
  split <;> exact ⟨rfl, rfl, fun _ => rfl⟩

theorem modalFrame_menuKeydown (s : State) (key : String) :
    ModalFrame s (if s.menuListeners = true then menuKeydown s key else s) := by
  split
  · unfold menuKeydown
    split
    · exact modalFrame_menuClose s
    · exact ModalFrame.refl s
  · exact ModalFrame.refl s

theorem modalFrame_keyboardKeydown (s : State) (key : String) :
    ModalFrame s (keyboardKeydown s key) := by
  unfold keyboardKeydown
  split <;> exact ⟨rfl, rfl, fun _ => rfl⟩

theorem modalFrame_closeModal (s : State) (id : Nat) : ModalFrame s (closeModal s id) :=
  ⟨rfl, rfl, closeModal_modalInDocument s id⟩

theorem modalFrame_scroll (s : State) (y : Int) : ModalFrame s (scroll s y) := by
  have h1 : ModalFrame s (scrollFirst s y) := by
    unfold scrollFirst backToTopScroll
    split
    · split
      · split <;> exact ⟨rfl, rfl, fun _ => rfl⟩
      · exact ⟨rfl, rfl, fun _ => rfl⟩
    · exact ⟨rfl, rfl, fun _ => rfl⟩
  unfold scroll
  split
  · refine h1.trans ?_
    unfold headerScroll
    split <;> exact ⟨rfl, rfl, fun _ => rfl⟩
  · exact h1

theorem modalFrame_clickTargetListeners (s : State) (t : ClickTarget) :
    ModalFrame s (clickTargetListeners s t) := by
  cases t <;> simp only [clickTargetListeners]
  · split
    · exact modalFrame_menuToggle s
    · exact ModalFrame.refl s
  · exact ModalFrame.refl s
  · split
    · split
      · rename_i s1 he
        obtain ⟨calls, hc⟩ := anchorClick_ok he
        rw [hc]
        exact ⟨rfl, rfl, fun _ => rfl⟩
      · exact ⟨rfl, rfl, fun _ => rfl⟩
    · exact ModalFrame.refl s
  · split
    · exact ⟨rfl, rfl, fun _ => rfl⟩
    · exact ModalFrame.refl s
  · split
    · exact modalFrame_closeModal s _
    · exact ModalFrame.refl s
  · split
    · exact modalFrame_closeModal s _
    · exact ModalFrame.refl s
  · exact ModalFrame.refl s
  · exact ModalFrame.refl s

theorem modalFrame_click (s : State) (t : ClickTarget) : ModalFrame s (click s t) := by
  unfold click documentClick
  split
  · exact (modalFrame_clickTargetListeners s t).trans (modalFrame_menuClose _)
  · exact modalFrame_clickTargetListeners s t

/-- What one `closeOnEscape` listener does on Escape. -/
theorem closeOnEscape_escape (s : State) (id : Nat) :
    (closeOnEscape s "Escape" id).nextId = s.nextId ∧
    (closeOnEscape s "Escape" id).now = s.now ∧
    (closeOnEscape s "Escape" id).escapeListeners = s.escapeListeners.erase id ∧
    (∀ x, modalInDocument (closeOnEscape s "Escape" id) x = modalInDocument s x) ∧
    (⟨s.now + 300, .modalRemove id⟩ : Timer) ∈ (closeOnEscape s "Escape" id).timers := by
  simp only [closeOnEscape, if_true]
  refine ⟨rfl, rfl, rfl, closeModal_modalInDocument s id, ?_⟩
  simp [closeModal, setTimeout]

theorem foldl_closeOnEscape_escape (ids : List Nat) :
    ∀ s : State,
      (ids.foldl (fun st id => closeOnEscape st "Escape" id) s).nextId = s.nextId ∧
      (∀ x, modalInDocument (ids.foldl (fun st id => closeOnEscape st "Escape" id) s) x =
        modalInDocument s x) ∧
      ∀ m ∈ ids, (⟨s.now + 300, .modalRemove m⟩ : Timer) ∈
        (ids.foldl (fun st id => closeOnEscape st "Escape" id) s).timers := by
  induction ids with
  | nil => intro s; exact ⟨rfl, fun _ => rfl, fun _ h => by cases h⟩
  | cons id ids ih =>
    intro s
    obtain ⟨a1, a2, _, a4, a5⟩ := closeOnEscape_escape s id
    obtain ⟨b1, b2, b3⟩ := ih (closeOnEscape s "Escape" id)
    rw [List.foldl_cons]
    refine ⟨b1.trans a1, fun x => (b2 x).trans (a4 x), ?_⟩
    intro m hm
    rcases List.mem_cons.mp hm with rfl | hm
    · exact (foldl_closeOnEscape_now_timers "Escape" ids _).2 _ a5
    · have := b3 m hm
      rw [a2] at this
      exact this

theorem foldl_closeOnEscape_other (key : String) (hk : key ≠ "Escape") (ids : List Nat) :
    ∀ s : State, ids.foldl (fun st id => closeOnEscape st key id) s = s := by
  induction ids with
  | nil => intro s; rfl
  | cons id ids ih =>
    intro s
    rw [List.foldl_cons]
    have : closeOnEscape s key id = s := by simp [closeOnEscape, hk]
    rw [this]
    exact ih s

/-- What an instantaneous event can do to the modals: it takes none out of
the document, the only one it can add is the element numbered `nextId`, and
an Escape listener it removes has scheduled the removal of its modal. -/
theorem step_modal (s : State) (e : Event) (hi : e.instant = true) :
    s.nextId ≤ (step s e).nextId ∧
    (∀ x, modalInDocument (step s e) x = true → modalInDocument s x = true ∨ x = s.nextId) ∧
    (∀ x, modalInDocument s x = true → modalInDocument (step s e) x = true) ∧
    ∀ m ∈ s.escapeListeners, m ∈ (step s e).escapeListeners ∨
      (⟨s.now + 300, .modalRemove m⟩ : Timer) ∈ (step s e).timers := by
  have frame : ∀ r, ModalFrame s r →
      s.nextId ≤ r.nextId ∧
      (∀ x, modalInDocument r x = true → modalInDocument s x = true ∨ x = s.nextId) ∧
      (∀ x, modalInDocument s x = true → modalInDocument r x = true) ∧
      ∀ m ∈ s.escapeListeners, m ∈ r.escapeListeners ∨
        (⟨s.now + 300, .modalRemove m⟩ : Timer) ∈ r.timers := by
    intro r ⟨h1, h2, h3⟩
    refine ⟨by omega, fun x hx => Or.inl ?_, fun x hx => ?_, fun m hm => Or.inl ?_⟩
    · rw [← h3]; exact hx
    · rw [h3]; exact hx
    · rw [h2]; exact hm
  have opened : ∀ c t b,
      s.nextId ≤ (showModal s c t b).nextId ∧
      (∀ x, modalInDocument (showModal s c t b) x = true →
        modalInDocument s x = true ∨ x = s.nextId) ∧
      (∀ x, modalInDocument s x = true → modalInDocument (showModal s c t b) x = true) ∧
      ∀ m ∈ s.escapeListeners, m ∈ (showModal s c t b).escapeListeners ∨
        (⟨s.now + 300, .modalRemove m⟩ : Timer) ∈ (showModal s c t b).timers := by
    intro c t b
    obtain ⟨_, _, _, _, f5, _, f7, f8, _⟩ := showModal_frame s c t b
    refine ⟨by omega, ?_, ?_, fun m hm => Or.inl (f8 m hm)⟩
    · intro x hx
      simp only [modalInDocument, f7, List.any_append, Bool.or_eq_true,
        List.any_eq_true, decide_eq_true_eq] at hx ⊢
      rcases hx with h | h
      · exact Or.inl h
      · right
        obtain ⟨m, hm, rfl⟩ := h
        simp only [List.mem_singleton] at hm
        rw [hm]
    · intro x hx
      simp only [modalInDocument, f7, List.any_append, Bool.or_eq_true]
      exact Or.inl hx
  cases e with
  | load =>
    apply frame
    simp only [step, onLoad]
    split <;> exact ⟨rfl, rfl, fun _ => rfl⟩
  | click t => exact frame _ (modalFrame_click s t)
  | keydown key =>
    have h12 := (modalFrame_menuKeydown s key).trans (modalFrame_keyboardKeydown _ key)
    have hnow :
        (keyboardKeydown (if s.menuListeners = true then menuKeydown s key else s) key).now =
          s.now := by
      have := (step_now_timers s (.keydown key) rfl).1
      unfold keyboardKeydown menuKeydown
      split <;> split <;> first | rfl | (split <;> first | rfl | exact (menuClose_now_timers s).1)
    by_cases hk : key = "Escape"
    · subst hk
      simp only [step, keydown]
      obtain ⟨a1, a2, a3⟩ := foldl_closeOnEscape_escape
        (keyboardKeydown (if s.menuListeners = true then menuKeydown s "Escape" else s)
          "Escape").escapeListeners
        (keyboardKeydown (if s.menuListeners = true then menuKeydown s "Escape" else s) "Escape")
      refine ⟨by rw [a1, h12.1], ?_, ?_, ?_⟩
      · intro x hx
        rw [a2, h12.2.2] at hx
        exact Or.inl hx
      · intro x hx
        rw [a2, h12.2.2]
        exact hx
      · intro m hm
        right
        rw [← h12.2.1] at hm
        have := a3 m hm
        rw [hnow] at this
        exact this
    · simp only [step, keydown]
      rw [foldl_closeOnEscape_other key hk]
      exact frame _ h12
  | mousedown =>
    apply frame
    simp only [step, mousedown]
    split <;> exact ⟨rfl, rfl, fun _ => rfl⟩
  | skipLinkFocus f =>
    apply frame
    simp only [step, skipLinkFocus]
    split <;> exact ⟨rfl, rfl, fun _ => rfl⟩
  | scroll y => exact frame _ (modalFrame_scroll s y)
  | showNotification m t d =>
    exact ⟨Nat.le_succ _, fun x hx => Or.inl hx, fun x hx => hx, fun m hm => Or.inl hm⟩
  | showModal c t b => exact opened c t b
  | closeModal id => exact frame _ (modalFrame_closeModal s id)
  | showAbout => exact opened _ _ true
  | showPrivacy => exact opened _ _ true
  | showTerms => exact opened _ _ true
  | advance dt => cases hi

/-! ## What events leave alone: overlay, notifications, click listeners -/

theorem overlayView_menuToggle (s : State) : overlayView (menuToggle s) = overlayView s := by
  unfold menuToggle
  split <;> rfl

theorem overlayView_menuClose (s : State) : overlayView (menuClose s) = overlayView s := by
  unfold menuClose
  split <;> rfl

theorem overlayView_closeOnEscape (s : State) (key : String) (id : Nat) :
    overlayView (closeOnEscape s key id) = overlayView s := by
  unfold closeOnEscape
  split <;> rfl

theorem overlayView_foldl_closeOnEscape (key : String) (ids : List Nat) :
    ∀ s : State,
      overlayView (ids.foldl (fun st id => closeOnEscape st key id) s) = overlayView s := by
  induction ids with
  | nil => intro s; rfl
  | cons id ids ih =>
    intro s
    rw [List.foldl_cons, ih, overlayView_closeOnEscape]

theorem overlayView_keydown (s : State) (key : String) :
    overlayView (keydown s key) = overlayView s := by
  simp only [keydown]
  rw [overlayView_foldl_closeOnEscape]
  have h1 : ∀ r : State, overlayView (keyboardKeydown r key) = overlayView r := by
    intro r
    unfold keyboardKeydown
    split <;> rfl
  rw [h1]
  split
  · unfold menuKeydown
    split
    · exact overlayView_menuClose s
    · rfl
  · rfl

theorem overlayView_scroll (s : State) (y : Int) : overlayView (scroll s y) = overlayView s := by
  have h1 : overlayView (scrollFirst s y) = overlayView s := by
    unfold scrollFirst backToTopScroll
    split
    · split
      · split <;> rfl
      · rfl
    · rfl
  unfold scroll
  split
  · rw [← h1]
    unfold headerScroll
    split <;> rfl
  · exact h1

theorem overlayView_click (s : State) (t : ClickTarget) :
    overlayView (click s t) = overlayView s := by
  have h1 : overlayView (clickTargetListeners s t) = overlayView s := by
    cases t <;> simp only [clickTargetListeners]
    · split
      · exact overlayView_menuToggle s
      · rfl
    · split
      · split
        · rename_i s1 he
          obtain ⟨calls, hc⟩ := anchorClick_ok he
          rw [hc]
          rfl
        · rfl
      · rfl
    · split <;> rfl
    · split <;> rfl
    · split <;> rfl
  unfold click documentClick
  split
  · rw [overlayView_menuClose, h1]
  · exact h1

/-- An instantaneous event other than `showNotification` leaves the overlay
and the notifications as they are; `showNotification` appends one element. -/
theorem step_overlayView (s : State) (e : Event) (hi : e.instant = true) :
    (step s e).doc.loading = s.doc.loading ∧ s.nextId ≤ (step s e).nextId ∧
    ∀ x, notificationInDocument (step s e) x = true →
      notificationInDocument s x = true ∨ x = s.nextId := by
  have frame : ∀ r : State, overlayView r = overlayView s → s.nextId ≤ r.nextId →
      r.doc.loading = s.doc.loading ∧ s.nextId ≤ r.nextId ∧
      ∀ x, notificationInDocument r x = true →
        notificationInDocument s x = true ∨ x = s.nextId := by
    intro r h hn
    have h1 : r.doc.loading = s.doc.loading := congrArg Prod.fst h
    have h2 : r.doc.notifications = s.doc.notifications := congrArg (fun v => v.2.1) h
    refine ⟨h1, hn, fun x hx => Or.inl ?_⟩
    simp only [notificationInDocument, h2] at hx ⊢
    exact hx
  have opened : ∀ c t b,
      (showModal s c t b).doc.loading = s.doc.loading ∧ s.nextId ≤ (showModal s c t b).nextId ∧
      ∀ x, notificationInDocument (showModal s c t b) x = true →
        notificationInDocument s x = true ∨ x = s.nextId := by
    intro c t b
    obtain ⟨_, f2, f3, _, f5, _⟩ := showModal_frame s c t b
    refine ⟨f2, by omega, fun x hx => Or.inl ?_⟩
    simp only [notificationInDocument, f3] at hx ⊢
    exact hx
  have hn := (step_modal s e hi).1
  cases e with
  | load =>
    apply frame _ _ hn
    simp only [step, onLoad]
    split <;> rfl
  | click t => exact frame _ (overlayView_click s t) hn
  | keydown key => exact frame _ (overlayView_keydown s key) hn
  | mousedown =>
    apply frame _ _ hn
    simp only [step, mousedown]
    split <;> rfl
  | skipLinkFocus f =>
    apply frame _ _ hn
    simp only [step, skipLinkFocus]
    split <;> rfl
  | scroll y => exact frame _ (overlayView_scroll s y) hn
  | showNotification m t d =>
    refine ⟨rfl, hn, ?_⟩
    intro x hx
    simp only [step, showNotification, setTimeout, notificationInDocument, List.any_append,
      Bool.or_eq_true, List.any_cons, List.any_nil, Bool.or_false, decide_eq_true_eq] at hx ⊢
    rcases hx with h | h
    · exact Or.inl h
    · exact Or.inr h.symm
  | showModal c t b => exact opened c t b
  | closeModal id => exact frame _ rfl hn
  | showAbout => exact opened _ _ true
  | showPrivacy => exact opened _ _ true
  | showTerms => exact opened _ _ true
  | advance dt => cases hi

/-- An instantaneous event takes no click listener off a modal. -/
theorem step_closeListeners (s : State) (e : Event) (hi : e.instant = true) (m : Nat)
    (hm : m ∈ s.closeListeners) : m ∈ (step s e).closeListeners := by
  have frame : ∀ r : State, overlayView r = overlayView s → m ∈ r.closeListeners := by
    intro r h
    have h3 : r.closeListeners = s.closeListeners := congrArg (fun v => v.2.2) h
    rw [h3]
    exact hm
  cases e with
  | load =>
    apply frame
    simp only [step, onLoad]
    split <;> rfl
  | click t => exact frame _ (overlayView_click s t)
  | keydown key => exact frame _ (overlayView_keydown s key)
  | mousedown =>
    apply frame
    simp only [step, mousedown]
    split <;> rfl
  | skipLinkFocus f =>
    apply frame
    simp only [step, skipLinkFocus]
    split <;> rfl
  | scroll y => exact frame _ (overlayView_scroll s y)
  | showNotification msg t d => exact hm
  | showModal c t b => exact (showModal_frame s c t b).2.2.2.2.2.2.2.2 m hm
  | closeModal id => exact hm
  | showAbout => exact (showModal_frame s _ _ true).2.2.2.2.2.2.2.2 m hm
  | showPrivacy => exact (showModal_frame s _ _ true).2.2.2.2.2.2.2.2 m hm
  | showTerms => exact (showModal_frame s _ _ true).2.2.2.2.2.2.2.2 m hm
  | advance dt => cases hi

/-- A callback touches no click listener. -/
theorem fireNext_closeListeners (s : State) (t : Timer) :
    (fireNext s t).closeListeners = s.closeListeners := by
  rw [fireNext]
  cases t.action <;> simp only [fire, loadHide, loadFallback, loadRemove, notifyIn, notifyOut,
    notifyRemove, modalIn, modalRemove, setTimeout]
  · split <;> rfl
  · split
    · split <;> rfl
    · rfl
  · split <;> rfl

/-! ## Modals: leaving the document -/

theorem gone_step {s : State} {e : Event} {m : Nat} (hi : e.instant = true)
    (hm : m < s.nextId) (hg : modalInDocument s m = false) :
    modalInDocument (step s e) m = false := by
  cases hc : modalInDocument (step s e) m with
  | false => rfl
  | true =>
    rcases (step_modal s e hi).2.1 m hc with h | h
    · rw [hg] at h; cases h
    · omega

theorem modalLeaving_step (m T : Nat) (s : State) (e : Event) (hi : e.instant = true)
    (h : ModalLeaving 1 m T s) : ModalLeaving 1 m T (step s e) := by
  obtain ⟨hm, h⟩ := h
  obtain ⟨hn, ht⟩ := step_now_timers s e hi
  refine ⟨lt_of_lt_of_le hm (step_modal s e hi).1, ?_⟩
  rcases h with hg | ⟨t, ht1, ht2, ht3, ht4⟩
  · exact Or.inl (gone_step hi hm hg)
  · exact Or.inr ⟨t, ht t ht1, ht2, by rw [hn]; exact ht3, ht4⟩

theorem modalLeaving_fireNext (m T : Nat) (r : State) (t : Timer)
    (h : ModalLeaving 0 m T r) (he : earliest r.timers = some t) :
    ModalLeaving 0 m T (fireNext r t) := by
  obtain ⟨hm, h⟩ := h
  obtain ⟨f1, _, f3⟩ := fireNext_modal r t
  refine ⟨by rw [f1]; exact hm, ?_⟩
  rcases h with hg | ⟨u, hu1, hu2, hu3, hu4⟩
  · left
    cases hc : modalInDocument (fireNext r t) m with
    | false => rfl
    | true => rw [f3 m hc] at hg; cases hg
  · by_cases hut : u = t
    · left
      exact fireNext_modalRemove r t m (hut ▸ hu2)
    · right
      refine ⟨u, fireNext_mem hu1 hut, hu2, ?_, hu4⟩
      rw [fireNext_now]
      have := earliest_le he u hu1
      simp only [add_zero] at hu3 ⊢
      exact max_le hu3 this

theorem modalLeaving_advance (m T : Nat) (s : State) (dt : Nat) (h : ModalLeaving 1 m T s) :
    ModalLeaving 1 m T (advance s dt) := by
  apply advance_preserves (ModalLeaving 0 m T) (ModalLeaving 1 m T) s dt _ _ _ h
  · rintro ⟨hm, h⟩
    refine ⟨hm, ?_⟩
    rcases h with hg | ⟨t, ht1, ht2, ht3, ht4⟩
    · exact Or.inl hg
    · exact Or.inr ⟨t, ht1, ht2, by omega, ht4⟩
  · intro r t hP he
    exact modalLeaving_fireNext m T r t hP he
  · rintro r target ⟨hm, h⟩ hdue _
    refine ⟨hm, ?_⟩
    rcases h with hg | ⟨t, ht1, ht2, _, ht4⟩
    · exact Or.inl hg
    · exact Or.inr ⟨t, ht1, ht2, hdue t ht1, ht4⟩

theorem modalLeaving_run (m T : Nat) (es : List Event) (s : State) (h : ModalLeaving 1 m T s) :
    ModalLeaving 1 m T (run s es) :=
  run_preserves (ModalLeaving 1 m T) (fun s e hi h => modalLeaving_step m T s e hi h)
    (fun s dt h => modalLeaving_advance m T s dt h) es s h

theorem modalLeaving_gone {m T : Nat} {s : State} (h : ModalLeaving 1 m T s) (hT : T ≤ s.now) :
    modalInDocument s m = false := by
  rcases h.2 with hg | ⟨t, _, _, h3, h4⟩
  · exact hg
  · omega

theorem modalOpen_step (m : Nat) (s : State) (e : Event) (hi : e.instant = true)
    (h : ModalOpen 1 m s) : ModalOpen 1 m (step s e) := by
  obtain ⟨hm, h⟩ := h
  obtain ⟨hn, ht⟩ := step_now_timers s e hi
  refine ⟨lt_of_lt_of_le hm (step_modal s e hi).1, ?_⟩
  rcases h with hg | ⟨t, ht1, ht2, ht3, ht4⟩ | hl
  · exact Or.inl (gone_step hi hm hg)
  · exact Or.inr (Or.inl ⟨t, ht t ht1, ht2, by rw [hn]; exact ht3, by rw [hn]; exact ht4⟩)
  · rcases (step_modal s e hi).2.2.2 m hl.1 with h | h
    · exact Or.inr (Or.inr ⟨h, step_closeListeners s e hi m hl.2⟩)
    · exact Or.inr (Or.inl ⟨_, h, rfl, by rw [hn]; show s.now + 1 ≤ s.now + 300; omega,
        by rw [hn]⟩)

theorem modalOpen_advance (m : Nat) (s : State) (dt : Nat) (h : ModalOpen 1 m s) :
    ModalOpen 1 m (advance s dt) := by
  apply advance_preserves (ModalOpen 0 m) (ModalOpen 1 m) s dt _ _ _ h
  · rintro ⟨hm, h⟩
    refine ⟨hm, ?_⟩
    rcases h with hg | ⟨t, ht1, ht2, ht3, ht4⟩ | hl
    · exact Or.inl hg
    · exact Or.inr (Or.inl ⟨t, ht1, ht2, by omega, ht4⟩)
    · exact Or.inr (Or.inr hl)
  · rintro r t ⟨hm, h⟩ he
    obtain ⟨f1, f2, f3⟩ := fireNext_modal r t
    refine ⟨by rw [f1]; exact hm, ?_⟩
    rcases h with hg | ⟨u, hu1, hu2, hu3, hu4⟩ | hl
    · left
      cases hc : modalInDocument (fireNext r t) m with
      | false => rfl
      | true => rw [f3 m hc] at hg; cases hg
    · by_cases hut : u = t
      · left
        exact fireNext_modalRemove r t m (hut ▸ hu2)
      · right; left
        refine ⟨u, fireNext_mem hu1 hut, hu2, ?_, ?_⟩
        · rw [fireNext_now]
          have := earliest_le he u hu1
          simp only [add_zero] at hu3 ⊢
          exact max_le hu3 this
        · rw [fireNext_now]
          have : r.now ≤ max r.now t.due := le_max_left _ _
          omega
    · right; right
      rw [f2, fireNext_closeListeners]
      exact hl
  · rintro r target ⟨hm, h⟩ hdue hn
    refine ⟨hm, ?_⟩
    rcases h with hg | ⟨t, ht1, ht2, _, ht4⟩ | hl
    · exact Or.inl hg
    · exact Or.inr (Or.inl ⟨t, ht1, ht2, hdue t ht1, by show t.due ≤ target + 300; omega⟩)
    · exact Or.inr (Or.inr hl)

theorem modalOpen_run (m : Nat) (es : List Event) (s : State) (h : ModalOpen 1 m s) :
    ModalOpen 1 m (run s es) :=
  run_preserves (ModalOpen 1 m) (fun s e hi h => modalOpen_step m s e hi h)
    (fun s dt h => modalOpen_advance m s dt h) es s h

theorem modalOpen_showModal (s : State) (c t : String) (b : Bool)
    (h : closeButtonFound t b = true) : ModalOpen 1 s.nextId (showModal s c t b) :=
  ⟨by rw [(showModal_frame s c t b).2.2.2.2.1]; exact Nat.lt_succ_self _,
    Or.inr (Or.inr (showModal_listeners s c t b h))⟩

theorem keydown_modalInDocument (s : State) (key : String) (x : Nat) :
    modalInDocument (keydown s key) x = modalInDocument s x := by
  have h12 := (modalFrame_menuKeydown s key).trans (modalFrame_keyboardKeydown _ key)
  by_cases hk : key = "Escape"
  · subst hk
    simp only [keydown]
    rw [(foldl_closeOnEscape_escape _ _).2.1 x, h12.2.2]
  · simp only [keydown]
    rw [foldl_closeOnEscape_other key hk, h12.2.2]

/-- On Escape every registered `closeOnEscape` listener schedules the removal
of its modal. -/
theorem keydown_escape_timer (s : State) (m : Nat) (hm : m ∈ s.escapeListeners) :
    (⟨s.now + 300, .modalRemove m⟩ : Timer) ∈ (keydown s "Escape").timers := by
  rcases (step_modal s (.keydown "Escape") rfl).2.2.2 m hm with h | h
  · exfalso
    have h12 := (modalFrame_menuKeydown s "Escape").trans (modalFrame_keyboardKeydown _ "Escape")
    have key : ∀ (ids : List Nat) (r : State), r.escapeListeners = ids →
        (ids.foldl (fun st id => closeOnEscape st "Escape" id) r).escapeListeners = [] := by
      intro ids
      induction ids with
      | nil => intro r hr; exact hr
      | cons id ids ih =>
        intro r hr
        rw [List.foldl_cons]
        apply ih
        rw [(closeOnEscape_escape r id).2.2.1, hr]
        simp
    have : (keydown s "Escape").escapeListeners = [] := by
      simp only [keydown]
      exact key _ _ rfl
    change m ∈ (keydown s "Escape").escapeListeners at h
    rw [this] at h
    cases h
  · exact h

theorem click_close_timer (s : State) (m : Nat) (t : ClickTarget)
    (ht : t = .modalClose m ∨ t = .modalOverlay m) (hl : m ∈ s.closeListeners)
    (h : modalInDocument s m = true) :
    (⟨s.now + 300, .modalRemove m⟩ : Timer) ∈ (click s t).timers := by
  have h1 : (⟨s.now + 300, .modalRemove m⟩ : Timer) ∈ (clickTargetListeners s t).timers := by
    rcases ht with rfl | rfl <;> simp [clickTargetListeners, hl, h, closeModal, setTimeout]
  unfold click documentClick
  split
  · rw [(menuClose_now_timers _).2]
    exact h1
  · exact h1

/-- Closing an open modal along any of the three paths leaves it out of the
document or with its removal due within 300 ms. -/
theorem modalOpen_close (m : Nat) (s : State) (p : ClosePath) (h : ModalOpen 1 m s) :
    ModalLeaving 1 m (s.now + 300) (step s (p.event m)) := by
  have hi : (p.event m).instant = true := by cases p <;> rfl
  obtain ⟨hm, h⟩ := h
  obtain ⟨hn, ht⟩ := step_now_timers s (p.event m) hi
  refine ⟨lt_of_lt_of_le hm (step_modal s _ hi).1, ?_⟩
  rcases h with hg | ⟨t, ht1, ht2, ht3, ht4⟩ | hl
  · exact Or.inl (gone_step hi hm hg)
  · exact Or.inr ⟨t, ht t ht1, ht2, by rw [hn]; exact ht3, ht4⟩
  · cases hc : modalInDocument s m with
    | false => exact Or.inl (gone_step hi hm hc)
    | true =>
      right
      refine ⟨⟨s.now + 300, .modalRemove m⟩, ?_, rfl, by rw [hn]; show s.now + 1 ≤ s.now + 300; omega,
        le_refl _⟩
      cases p with
      | closeButton => exact click_close_timer s m _ (Or.inl rfl) hl.2 hc
      | overlay => exact click_close_timer s m _ (Or.inr rfl) hl.2 hc
      | escape => exact keydown_escape_timer s m hl.1

theorem step_keeps_modals (s : State) (e : Event) (hi : e.instant = true)
    (ho : e.opensModal = false) (x : Nat) :
    modalInDocument (step s e) x = modalInDocument s x := by
  cases e with
  | load =>
    simp only [step, onLoad]
    split <;> rfl
  | click t => exact (modalFrame_click s t).2.2 x
  | keydown key => exact keydown_modalInDocument s key x
  | mousedown =>
    simp only [step, mousedown]
    split <;> rfl
  | skipLinkFocus f =>
    simp only [step, skipLinkFocus]
    split <;> rfl
  | scroll y => exact (modalFrame_scroll s y).2.2 x
  | showNotification m t d => rfl
  | showModal c t b => cases ho
  | closeModal id => exact closeModal_modalInDocument s id x
  | showAbout => cases ho
  | showPrivacy => cases ho
  | showTerms => cases ho
  | advance dt => cases hi

theorem advance_keeps_modals (s : State) (dt : Nat) (x : Nat)
    (h : modalInDocument (advance s dt) x = true) : modalInDocument s x = true := by
  obtain ⟨r, hr, _, he⟩ := advance_induction
    (fun r => modalInDocument r x = true → modalInDocument s x = true) s dt
    (by
      intro r t hI _ _ hx
      exact hI ((fireNext_modal r t).2.2 x hx))
    (fun h => h)
  rw [he] at h
  exact hr h

theorem run_keeps_modals (x : Nat) (es : List Event) :
    ∀ s : State, (∀ e ∈ es, e.opensModal = false) →
      modalInDocument (run s es) x = true → modalInDocument s x = true := by
  induction es with
  | nil => intro s _ h; exact h
  | cons e es ih =>
    intro s ho h
    have h1 := ih (step s e) (fun e1 h1 => ho e1 (List.mem_cons_of_mem _ h1)) h
    by_cases hi : e.instant = true
    · rw [step_keeps_modals s e hi (ho e (List.mem_cons_self _ _))] at h1
      exact h1
    · cases e <;> first | exact absurd rfl hi | skip
      exact advance_keeps_modals s _ x h1

theorem modals_eq_nil {s : State} (h : ∀ x, modalInDocument s x = false) : s.doc.modals = [] := by
  cases hm : s.doc.modals with
  | nil => rfl
  | cons m ms =>
    have := h m.id
    simp [modalInDocument, hm] at this

/-- C5 (as amended): a modal made by a call of `showModal` that finds the
`.modal-close` button of the template (line 362), whatever happens before it
is closed, is out of the document once 300 ms have passed after it was closed
by the close button, by a click on the overlay or by Escape.  When there was
no other modal in the document and none is opened meanwhile, no modal is
left. -/
theorem modal_removed_after_close (s : State) (content title : String) (parsed : Bool)
    (es1 : List Event) (p : ClosePath) (es2 : List Event)
    (hc : closeButtonFound title parsed = true) (h : 300 ≤ elapsed es2) :
    modalInDocument
      (run (step (run (showModal s content title parsed) es1) (p.event s.nextId)) es2)
      s.nextId = false ∧
    (s.doc.modals = [] → (∀ e ∈ es1 ++ es2, e.opensModal = false) →
      (run (step (run (showModal s content title parsed) es1) (p.event s.nextId)) es2).doc.modals
        = []) := by
  have h1 := modalOpen_run s.nextId es1 _ (modalOpen_showModal s content title parsed hc)
  have h2 := modalOpen_close s.nextId _ p h1
  have h3 := modalLeaving_run s.nextId _ es2 _ h2
  have hnow : (run (showModal s content title parsed) es1).now + 300 ≤
      (run (step (run (showModal s content title parsed) es1) (p.event s.nextId)) es2).now := by
    have e1 := run_now es2 (step (run (showModal s content title parsed) es1) (p.event s.nextId))
    have e2 := (step_now_timers (run (showModal s content title parsed) es1) (p.event s.nextId)
      (by cases p <;> rfl)).1
    rw [e1, e2]
    omega
  have hgone := modalLeaving_gone h3 hnow
  refine ⟨hgone, ?_⟩
  intro hs ho
  apply modals_eq_nil
  intro x
  cases hx : modalInDocument
      (run (step (run (showModal s content title parsed) es1) (p.event s.nextId)) es2) x with
  | false => rfl
  | true =>
    have k1 := run_keeps_modals x es2 _ (fun e he => ho e (List.mem_append_right _ he)) hx
    rw [step_keeps_modals _ _ (by cases p <;> rfl) (by cases p <;> rfl)] at k1
    have k2 := run_keeps_modals x es1 _ (fun e he => ho e (List.mem_append_left _ he)) k1
    have k3 : x = s.nextId := by
      simp only [modalInDocument, (showModal_frame s content title parsed).2.2.2.2.2.2.1, hs,
        List.nil_append, List.any_cons, List.any_nil, Bool.or_false, decide_eq_true_eq] at k2
      exact k2.symm
    rw [k3, hgone] at hx
    cases hx

/-! ## Notifications -/

theorem notification_map (ns : List Notification) (f : Notification → Notification)
    (hf : ∀ n, (f n).id = n.id) (x : Nat) :
    (ns.map f).any (fun n => decide (n.id = x)) = ns.any (fun n => decide (n.id = x)) := by
  induction ns with
  | nil => rfl
  | cons n ns ih => simp only [List.map_cons, List.any_cons, ih, hf]

theorem fire_notification (s : State) (a : TimerAction) (x : Nat)
    (h : notificationInDocument (fire s a) x = true) : notificationInDocument s x = true := by
  cases a <;> simp only [fire] at h
  · unfold loadHide at h
    split at h <;> exact h
  · unfold loadFallback at h
    split at h
    · split at h <;> exact h
    · exact h
  · unfold loadRemove at h
    split at h <;> exact h
  · simp only [notifyIn, notificationInDocument] at h
    rw [notification_map _ _ (by intro n; split <;> rfl)] at h
    exact h
  · simp only [notifyOut, setTimeout, notificationInDocument] at h
    rw [notification_map _ _ (by intro n; split <;> rfl)] at h
    exact h
  · simp only [notifyRemove, notificationInDocument, List.any_eq_true, List.mem_filter,
      decide_eq_true_eq] at h ⊢
    obtain ⟨n, ⟨hn, _⟩, hx⟩ := h
    exact ⟨n, hn, hx⟩
  · exact h
  · exact h

theorem fireNext_notification (s : State) (t : Timer) (x : Nat)
    (h : notificationInDocument (fireNext s t) x = true) : notificationInDocument s x = true :=
  fire_notification { s with now := max s.now t.due, timers := s.timers.erase t } t.action x h

theorem fireNext_notifyRemove (s : State) (t : Timer) (id : Nat)
    (h : t.action = .notifyRemove id) : notificationInDocument (fireNext s t) id = false := by
  rw [fireNext, h]
  simp [fire, notifyRemove, notificationInDocument]

theorem fireNext_notifyOut (s : State) (t : Timer) (id : Nat) (h : t.action = .notifyOut id) :
    (⟨max s.now t.due + 300, .notifyRemove id⟩ : Timer) ∈ (fireNext s t).timers := by
  rw [fireNext, h]
  simp [fire, notifyOut, setTimeout]

theorem notificationLeaving_step (id T : Nat) (s : State) (e : Event) (hi : e.instant = true)
    (h : NotificationLeaving 1 id T s) : NotificationLeaving 1 id T (step s e) := by
  obtain ⟨hm, h⟩ := h
  obtain ⟨hn, ht⟩ := step_now_timers s e hi
  obtain ⟨_, k1, k2⟩ := step_overlayView s e hi
  refine ⟨lt_of_lt_of_le hm k1, ?_⟩
  rcases h with hg | ⟨t, ht1, ht2, ht3, ht4⟩ | ⟨t, ht1, ht2, ht3, ht4⟩
  · left
    cases hc : notificationInDocument (step s e) id with
    | false => rfl
    | true =>
      rcases k2 id hc with h | h
      · rw [hg] at h; cases h
      · omega
  · exact Or.inr (Or.inl ⟨t, ht t ht1, ht2, by rw [hn]; exact ht3, ht4⟩)
  · exact Or.inr (Or.inr ⟨t, ht t ht1, ht2, by rw [hn]; exact ht3, ht4⟩)

theorem notificationLeaving_advance (id T : Nat) (s : State) (dt : Nat)
    (h : NotificationLeaving 1 id T s) : NotificationLeaving 1 id T (advance s dt) := by
  apply advance_preserves (NotificationLeaving 0 id T) (NotificationLeaving 1 id T) s dt _ _ _ h
  · rintro ⟨hm, h⟩
    refine ⟨hm, ?_⟩
    rcases h with hg | ⟨t, ht1, ht2, ht3, ht4⟩ | h3
    · exact Or.inl hg
    · exact Or.inr (Or.inl ⟨t, ht1, ht2, by omega, ht4⟩)
    · exact Or.inr (Or.inr h3)
  · rintro r t ⟨hm, h⟩ he
    refine ⟨by rw [(fireNext_modal r t).1]; exact hm, ?_⟩
    rcases h with hg | ⟨u, hu1, hu2, hu3, hu4⟩ | ⟨u, hu1, hu2, hu3, hu4⟩
    · left
      cases hc : notificationInDocument (fireNext r t) id with
      | false => rfl
      | true => rw [fireNext_notification r t id hc] at hg; cases hg
    · by_cases hut : u = t
      · left
        exact fireNext_notifyRemove r t id (hut ▸ hu2)
      · right; left
        refine ⟨u, fireNext_mem hu1 hut, hu2, ?_, hu4⟩
        rw [fireNext_now]
        have := earliest_le he u hu1
        simp only [add_zero] at hu3 ⊢
        exact max_le hu3 this
    · by_cases hut : u = t
      · right; left
        subst hut
        refine ⟨_, fireNext_notifyOut r u id hu2, rfl, ?_, ?_⟩
        · rw [fireNext_now]
          show max r.now u.due + 0 ≤ max r.now u.due + 300
          omega
        · show max r.now u.due + 300 ≤ T
          rw [max_eq_right hu3]
          exact hu4
      · right; right
        refine ⟨u, fireNext_mem hu1 hut, hu2, ?_, hu4⟩
        rw [fireNext_now]
        exact max_le hu3 (earliest_le he u hu1)
  · rintro r target ⟨hm, h⟩ hdue _
    refine ⟨hm, ?_⟩
    rcases h with hg | ⟨t, ht1, ht2, _, ht4⟩ | ⟨t, ht1, ht2, _, ht4⟩
    · exact Or.inl hg
    · exact Or.inr (Or.inl ⟨t, ht1, ht2, hdue t ht1, ht4⟩)
    · exact Or.inr (Or.inr ⟨t, ht1, ht2, le_of_lt (hdue t ht1), ht4⟩)

theorem notificationLeaving_run (id T : Nat) (es : List Event) (s : State)
    (h : NotificationLeaving 1 id T s) : NotificationLeaving 1 id T (run s es) :=
  run_preserves (NotificationLeaving 1 id T)
    (fun s e hi h => notificationLeaving_step id T s e hi h)
    (fun s dt h => notificationLeaving_advance id T s dt h) es s h

/-- C6: for each of the four severities the new element gets the colour of the
severity, and the element is out of the document once `duration + 300` ms have
passed since the call, whatever else happens on the page meanwhile. -/
theorem showNotification_color_and_removal (s : State) (message type : String)
    (duration : Nat) (es : List Event) (he : duration + 300 ≤ elapsed es) :
    (∃ n ∈ (showNotification s message type duration).doc.notifications,
      n.id = s.nextId ∧ n.textContent = message ∧
      (type = "success" → n.backgroundColor = "#4ade80") ∧
      (type = "error" → n.backgroundColor = "#f87171") ∧
      (type = "warning" → n.backgroundColor = "#fbbf24") ∧
      (type = "info" → n.backgroundColor = "#667eea")) ∧
    notificationInDocument (showNotification s message type duration) s.nextId = true ∧
    notificationInDocument (run (showNotification s message type duration) es) s.nextId =
      false := by
  refine ⟨?_, ?_, ?_⟩
  · refine ⟨_, List.mem_append_right _ (List.mem_singleton_self _), rfl, rfl, ?_, ?_, ?_, ?_⟩
    · intro h
      subst h
      show notificationColor "success" = "#4ade80"
      decide
    · intro h
      subst h
      show notificationColor "error" = "#f87171"
      decide
    · intro h
      subst h
      show notificationColor "warning" = "#fbbf24"
      decide
    · intro h
      subst h
      show notificationColor "info" = "#667eea"
      decide
  · simp [showNotification, setTimeout, notificationInDocument]
  · have h0 : NotificationLeaving 1 s.nextId (s.now + duration + 300)
        (showNotification s message type duration) := by
      refine ⟨Nat.lt_succ_self _, Or.inr (Or.inr ⟨⟨s.now + duration, .notifyOut s.nextId⟩, ?_, rfl,
        ?_, le_refl _⟩)⟩
      · simp [showNotification, setTimeout]
      · show s.now ≤ s.now + duration
        omega
    have h1 := notificationLeaving_run _ _ es _ h0
    have hnow := run_now es (showNotification s message type duration)
    have hs : (showNotification s message type duration).now = s.now := rfl
    rcases h1.2 with hg | ⟨t, _, _, h3, h4⟩ | ⟨t, _, _, h3, h4⟩
    · exact hg
    · omega
    · omega

/-! ## Loading overlay -/

/-- What a callback does to the overlay. -/
theorem fireNext_overlay (r : State) (t : Timer) (o : Overlay) (ho : r.doc.loading = some o) :
    (t.action = .loadHide ∨
        (t.action = .loadFallback ∧ classList.contains o.classes "hidden" = false) →
      (fireNext r t).doc.loading =
          some { o with classes := classList.add o.classes "hidden" } ∧
        (⟨max r.now t.due + 300, .loadRemove⟩ : Timer) ∈ (fireNext r t).timers) ∧
    (t.action = .loadRemove →
      (fireNext r t).doc.loading = some { o with inDocument := false }) ∧
    (t.action ≠ .loadHide → t.action ≠ .loadRemove →
      (t.action = .loadFallback → classList.contains o.classes "hidden" = true) →
      (fireNext r t).doc.loading = some o) := by
  refine ⟨?_, ?_, ?_⟩
  · rintro (h | ⟨h, hh⟩)
    · rw [fireNext, h]
      simp [fire, loadHide, ho, setTimeout]
    · rw [fireNext, h]
      simp [fire, loadFallback, ho, hh, setTimeout]
  · intro h
    rw [fireNext, h]
    simp [fire, loadRemove, ho]
  · intro h1 h2 h3
    rw [fireNext]
    cases ha : t.action with
    | loadHide => exact absurd ha h1
    | loadRemove => exact absurd ha h2
    | loadFallback =>
      have := h3 ha
      simp [fire, loadFallback, ho, this]
    | notifyIn id => simpa [fire, notifyIn] using ho
    | notifyOut id => simpa [fire, notifyOut, setTimeout] using ho
    | notifyRemove id => simpa [fire, notifyRemove] using ho
    | modalIn id => simpa [fire, modalIn] using ho
    | modalRemove id => simpa [fire, modalRemove] using ho

theorem overlayLeaving_fireNext (T : Nat) (r : State) (t : Timer)
    (h : OverlayLeaving 0 T r) (he : earliest r.timers = some t) :
    OverlayLeaving 0 T (fireNext r t) := by
  obtain ⟨o, ho, h⟩ := h
  obtain ⟨f1, f2, f3⟩ := fireNext_overlay r t o ho
  have hnow := fireNext_now r t
  have hle := earliest_le he
  by_cases hide : t.action = .loadHide ∨
      (t.action = .loadFallback ∧ classList.contains o.classes "hidden" = false)
  · obtain ⟨g1, g2⟩ := f1 hide
    refine ⟨_, g1, ?_⟩
    have hc : classList.contains (classList.add o.classes "hidden") "hidden" = true :=
      contains_add _ _
    rcases h with ⟨_, u, hu1, _, hu3, hu4⟩ | ⟨_, u, hu1, hu2, hu3, hu4⟩ | ⟨_, hin⟩
    · right; left
      refine ⟨hc, _, g2, rfl, ?_, ?_⟩
      · rw [hnow]
        show max r.now t.due + 0 ≤ max r.now t.due + 300
        omega
      · have := hle u hu1
        show max r.now t.due + 300 ≤ T
        have : max r.now t.due ≤ u.due := max_le hu3 this
        omega
    · right; left
      have hut : u ≠ t := by
        intro e
        subst e
        rcases hide with h | ⟨h, _⟩ <;> rw [h] at hu2 <;> cases hu2
      refine ⟨hc, u, fireNext_mem hu1 hut, hu2, ?_, hu4⟩
      rw [hnow]
      simp only [add_zero] at hu3 ⊢
      exact max_le hu3 (hle u hu1)
    · right; right
      exact ⟨hc, hin⟩
  · by_cases hrem : t.action = .loadRemove
    · refine ⟨_, f2 hrem, ?_⟩
      rcases h with ⟨hh, u, hu1, hu2, hu3, hu4⟩ | ⟨hh, _⟩ | ⟨hh, _⟩
      · left
        have hut : u ≠ t := by
          intro e
          subst e
          rw [hrem] at hu2
          cases hu2
        refine ⟨hh, u, fireNext_mem hu1 hut, hu2, ?_, hu4⟩
        rw [hnow]
        exact max_le hu3 (hle u hu1)
      · exact Or.inr (Or.inr ⟨hh, rfl⟩)
      · exact Or.inr (Or.inr ⟨hh, rfl⟩)
    · have hhide : t.action ≠ .loadHide := fun e => hide (Or.inl e)
      have hfb : t.action = .loadFallback → classList.contains o.classes "hidden" = true := by
        intro e
        cases hc : classList.contains o.classes "hidden" with
        | true => rfl
        | false => exact absurd (Or.inr ⟨e, hc⟩) hide
      refine ⟨o, f3 hhide hrem hfb, ?_⟩
      rcases h with ⟨hh, u, hu1, hu2, hu3, hu4⟩ | ⟨hh, u, hu1, hu2, hu3, hu4⟩ | h3
      · left
        have hut : u ≠ t := by
          intro e
          subst e
          rw [hfb hu2] at hh
          cases hh
        refine ⟨hh, u, fireNext_mem hu1 hut, hu2, ?_, hu4⟩
        rw [hnow]
        exact max_le hu3 (hle u hu1)
      · right; left
        have hut : u ≠ t := by
          intro e
          subst e
          exact hrem hu2
        refine ⟨hh, u, fireNext_mem hu1 hut, hu2, ?_, hu4⟩
        rw [hnow]
        simp only [add_zero] at hu3 ⊢
        exact max_le hu3 (hle u hu1)
      · exact Or.inr (Or.inr h3)

theorem overlayLeaving_step (T : Nat) (s : State) (e : Event) (hi : e.instant = true)
    (h : OverlayLeaving 1 T s) : OverlayLeaving 1 T (step s e) := by
  obtain ⟨o, ho, h⟩ := h
  obtain ⟨hn, ht⟩ := step_now_timers s e hi
  obtain ⟨k1, _, _⟩ := step_overlayView s e hi
  refine ⟨o, k1.trans ho, ?_⟩
  rcases h with ⟨hh, u, hu1, hu2, hu3, hu4⟩ | ⟨hh, u, hu1, hu2, hu3, hu4⟩ | h3
  · exact Or.inl ⟨hh, u, ht u hu1, hu2, by rw [hn]; exact hu3, hu4⟩
  · exact Or.inr (Or.inl ⟨hh, u, ht u hu1, hu2, by rw [hn]; exact hu3, hu4⟩)
  · exact Or.inr (Or.inr h3)

theorem overlayLeaving_advance (T : Nat) (s : State) (dt : Nat) (h : OverlayLeaving 1 T s) :
    OverlayLeaving 1 T (advance s dt) := by
  apply advance_preserves (OverlayLeaving 0 T) (OverlayLeaving 1 T) s dt _ _ _ h
  · rintro ⟨o, ho, h⟩
    refine ⟨o, ho, ?_⟩
    rcases h with h1 | ⟨hh, u, hu1, hu2, hu3, hu4⟩ | h3
    · exact Or.inl h1
    · exact Or.inr (Or.inl ⟨hh, u, hu1, hu2, by omega, hu4⟩)
    · exact Or.inr (Or.inr h3)
  · intro r t hP he
    exact overlayLeaving_fireNext T r t hP he
  · rintro r target ⟨o, ho, h⟩ hdue _
    refine ⟨o, ho, ?_⟩
    rcases h with ⟨hh, u, hu1, hu2, _, hu4⟩ | ⟨hh, u, hu1, hu2, _, hu4⟩ | h3
    · exact Or.inl ⟨hh, u, hu1, hu2, le_of_lt (hdue u hu1), hu4⟩
    · exact Or.inr (Or.inl ⟨hh, u, hu1, hu2, hdue u hu1, hu4⟩)
    · exact Or.inr (Or.inr h3)

theorem overlayLeaving_run (T : Nat) (es : List Event) (s : State) (h : OverlayLeaving 1 T s) :
    OverlayLeaving 1 T (run s es) :=
  run_preserves (OverlayLeaving 1 T) (fun s e hi h => overlayLeaving_step T s e hi h)
    (fun s dt h => overlayLeaving_advance T s dt h) es s h

/-- After initialisation of a page whose overlay is in the document, the
overlay is as it was, the clock has not moved and the fallback is pending. -/
theorem domContentLoaded_overlay (s : State) (o : Overlay) (ho : s.doc.loading = some o)
    (hin : o.inDocument = true) :
    (domContentLoaded s).doc.loading = some o ∧ (domContentLoaded s).now = s.now ∧
    (⟨s.now + 3000, .loadFallback⟩ : Timer) ∈ (domContentLoaded s).timers := by
  have h1 : (initLoadingScreen s).doc.loading = some o ∧ (initLoadingScreen s).now = s.now ∧
      (⟨s.now + 3000, .loadFallback⟩ : Timer) ∈ (initLoadingScreen s).timers := by
    simp [initLoadingScreen, ho, hin, setTimeout]
  have h2 : ∀ r : State, (initMobileMenu r).doc.loading = r.doc.loading ∧
      (initMobileMenu r).now = r.now ∧ (initMobileMenu r).timers = r.timers := by
    intro r
    unfold initMobileMenu
    split <;> exact ⟨rfl, rfl, rfl⟩
  have h3 : ∀ r : State, (initBackToTop r).doc.loading = r.doc.loading ∧
      (initBackToTop r).now = r.now ∧ (initBackToTop r).timers = r.timers := by
    intro r
    unfold initBackToTop
    split <;> exact ⟨rfl, rfl, rfl⟩
  have h4 : ∀ r : State, (initHeaderScroll r).doc.loading = r.doc.loading ∧
      (initHeaderScroll r).now = r.now ∧ (initHeaderScroll r).timers = r.timers := by
    intro r
    unfold initHeaderScroll
    split <;> exact ⟨rfl, rfl, rfl⟩
  unfold domContentLoaded
  refine ⟨?_, ?_, ?_⟩
  · show (initHeaderScroll _).doc.loading = _
    rw [(h4 _).1, (h3 _).1, (h2 _).1]
    exact h1.1
  · show (initHeaderScroll _).now = _
    rw [(h4 _).2.1, (h3 _).2.1, (h2 _).2.1]
    exact h1.2.1
  · show _ ∈ (initHeaderScroll _).timers
    rw [(h4 _).2.2, (h3 _).2.2, (h2 _).2.2]
    exact h1.2.2

/-- C8 (as amended): when the overlay is in the document at initialisation and
does not carry `hidden` yet, then whenever the load event is delivered, once
or several times or never, and whatever else happens on the page, from
3300 ms after initialisation on the overlay carries `hidden` and is out of
the document. -/
theorem loading_overlay_removed (d : Document) (y : Int) (o : Overlay) (es : List Event)
    (hd : d.loading = some o) (hin : o.inDocument = true)
    (hh : classList.contains o.classes "hidden" = false) (he : 3300 ≤ elapsed es) :
    ∃ o1, (run (domContentLoaded (State.ofDocument d y)) es).doc.loading = some o1 ∧
      classList.contains o1.classes "hidden" = true ∧ o1.inDocument = false := by
  obtain ⟨i1, i2, i3⟩ := domContentLoaded_overlay (State.ofDocument d y) o hd hin
  have h0 : OverlayLeaving 1 3300 (domContentLoaded (State.ofDocument d y)) := by
    refine ⟨o, i1, Or.inl ⟨hh, _, i3, rfl, ?_, ?_⟩⟩
    · rw [i2]
      show (State.ofDocument d y).now ≤ (State.ofDocument d y).now + 3000
      omega
    · show (State.ofDocument d y).now + 3000 + 300 ≤ 3300
      show 0 + 3000 + 300 ≤ 3300
      omega
  obtain ⟨o1, ho1, h1⟩ := overlayLeaving_run 3300 es _ h0
  have hnow := run_now es (domContentLoaded (State.ofDocument d y))
  rw [i2] at hnow
  have hz : (State.ofDocument d y).now = 0 := rfl
  refine ⟨o1, ho1, ?_⟩
  rcases h1 with ⟨_, u, _, _, hu3, hu4⟩ | ⟨_, u, _, _, hu3, hu4⟩ | h3
  · omega
  · omega
  · exact h3

/-! ## The Escape key -/

theorem menuView_keydown (s : State) (key : String) :
    menuView (keydown s key) =
      menuView (if s.menuListeners = true then menuKeydown s key else s) := by
  simp only [keydown]
  rw [menuView_foldl_closeOnEscape, menuView_keyboardKeydown]

/-- With no modal in the document, a `closeOnEscape` listener only schedules a
timer and takes itself off the document. -/
theorem closeOnEscape_detached (s : State) (id : Nat) (h : s.doc.modals = []) :
    closeOnEscape s "Escape" id =
      { s with timers := s.timers ++ [⟨s.now + 300, .modalRemove id⟩]
               escapeListeners := s.escapeListeners.erase id } := by
  obtain ⟨d, a, b, c, e, f, g1, g2, g3, g4, g5, g6, g7, g8, g9, g10⟩ := s
  obtain ⟨d1, d2, d3, d4, d5, d6, d7, d8, d9, d10, d11, d12, d13⟩ := d
  simp only at h
  subst h
  simp [closeOnEscape, closeModal, setTimeout]

theorem foldl_closeOnEscape_detached (ids : List Nat) :
    ∀ s : State, s.doc.modals = [] →
      ∃ ts ls, ids.foldl (fun st id => closeOnEscape st "Escape" id) s =
        { s with timers := ts, escapeListeners := ls } := by
  induction ids with
  | nil => intro s _; exact ⟨s.timers, s.escapeListeners, rfl⟩
  | cons id ids ih =>
    intro s h
    rw [List.foldl_cons, closeOnEscape_detached s id h]
    obtain ⟨ts, ls, e⟩ := ih { s with timers := s.timers ++ [⟨s.now + 300, .modalRemove id⟩]
                                      escapeListeners := s.escapeListeners.erase id } h
    exact ⟨ts, ls, e⟩

/-- What the Escape key does.  While the menu is open it closes it: the nav
list and the button lose `active`, `aria-expanded` is `false`, the overflow of
`body` is empty.  A modal made by a call of `showModal` that found the close
button is out of the document 300 ms after Escape, whatever has happened to it
before.  While the menu is closed and no modal is in the document, Escape
changes nothing but the timer queue and the list of `closeOnEscape` listeners,
and nothing at all when no such listener is registered. -/
theorem escape_key_effects (s : State) (b : MenuButton) (n : List String)
    (content title : String) (parsed : Bool) (es1 es2 : List Event) :
    (s.menuListeners = true → s.doc.mobileMenuBtn = some b → s.doc.navList = some n →
      classList.contains n "active" = true →
      ∃ b1 n1, (keydown s "Escape").doc.mobileMenuBtn = some b1 ∧
        (keydown s "Escape").doc.navList = some n1 ∧
        classList.contains n1 "active" = false ∧ classList.contains b1.classes "active" = false ∧
        b1.ariaExpanded = some "false" ∧ (keydown s "Escape").doc.body.overflow = "") ∧
    (closeButtonFound title parsed = true → 300 ≤ elapsed es2 →
      modalInDocument (run (keydown (run (showModal s content title parsed) es1) "Escape") es2)
        s.nextId = false) ∧
    (navActive s = false → s.doc.modals = [] →
      (keydown s "Escape" =
        { s with timers := (keydown s "Escape").timers
                 escapeListeners := (keydown s "Escape").escapeListeners }) ∧
      (s.escapeListeners = [] → keydown s "Escape" = s)) := by
  refine ⟨?_, ?_, ?_⟩
  · intro hl hb hn ha
    have hv := menuView_keydown s "Escape"
    have hact : navActive s = true := by simp [navActive, hn, ha]
    simp only [hl, if_true, menuKeydown, hact, and_self, menuClose, hb, hn, menuView] at hv
    have h1 := congrArg Prod.fst hv
    have h2 := congrArg (fun v => v.2.1) hv
    have h3 := congrArg (fun v => v.2.2) hv
    simp only at h1 h2 h3
    exact ⟨_, _, h1, h2, contains_remove _ _, contains_remove _ _, rfl, h3⟩
  · intro hc he
    have h1 := modalOpen_run s.nextId es1 _ (modalOpen_showModal s content title parsed hc)
    have h2 := modalOpen_close s.nextId _ .escape h1
    have h3 := modalLeaving_run s.nextId _ es2 _ h2
    apply modalLeaving_gone h3
    have e1 :=
      run_now es2 (step (run (showModal s content title parsed) es1) (.keydown "Escape"))
    have e2 :=
      (step_now_timers (run (showModal s content title parsed) es1) (.keydown "Escape") rfl).1
    show _ ≤
      (run (step (run (showModal s content title parsed) es1) (.keydown "Escape")) es2).now
    rw [e1, e2]
    omega
  · intro ha hm
    have k1 : (if s.menuListeners = true then menuKeydown s "Escape" else s) = s := by
      split
      · simp [menuKeydown, ha]
      · rfl
    have k2 : keyboardKeydown s "Escape" = s := by
      simp [keyboardKeydown]
    have k3 : keydown s "Escape" =
        s.escapeListeners.foldl (fun st id => closeOnEscape st "Escape" id) s := by
      simp only [keydown]
      rw [k1, k2]
    constructor
    · obtain ⟨ts, ls, e⟩ := foldl_closeOnEscape_detached s.escapeListeners s hm
      rw [k3, e]
    · intro hl
      rw [k3, hl]
      rfl

/-! ## Mobile menu: the toggle -/

/-- What the click listener of the button writes. -/
theorem menuToggle_view (s : State) (b : MenuButton) (n : List String)
    (hb : s.doc.mobileMenuBtn = some b) (hn : s.doc.navList = some n) :
    menuView (menuToggle s) =
      (some { classes := classList.toggle b.classes "active"
              ariaExpanded := some (if classList.contains n "active" then "false" else "true")
              ariaLabel := some (if classList.contains n "active" then "Открыть меню"
                else "Закрыть меню") },
        some (classList.toggle n "active"),
        if classList.contains n "active" then "" else "hidden") := by
  simp only [menuToggle, hb, hn, menuView]

/-- C1 (as amended): for a page with the button and the nav list, two runs of
the click listener of the button bring `aria-expanded` and the overflow of
`body` back to their values before the first click exactly when these values
mirrored the class of the nav list before the first click (`true` and
`hidden` with `active`, `false` and the empty string without); the class
`active` of the nav list is back in either case. -/
theorem menuToggle_twice (s : State) (b : MenuButton) (n : List String)
    (hb : s.doc.mobileMenuBtn = some b) (hn : s.doc.navList = some n) :
    ∃ b2 n2, (menuToggle (menuToggle s)).doc.mobileMenuBtn = some b2 ∧
      (menuToggle (menuToggle s)).doc.navList = some n2 ∧
      classList.contains n2 "active" = classList.contains n "active" ∧
      ((b2.ariaExpanded = b.ariaExpanded ∧
          (menuToggle (menuToggle s)).doc.body.overflow = s.doc.body.overflow) ↔
        (b.ariaExpanded = some (if classList.contains n "active" then "true" else "false") ∧
          s.doc.body.overflow = (if classList.contains n "active" then "hidden" else ""))) := by
  have h1 := menuToggle_view s b n hb hn
  have hb1 := congrArg Prod.fst h1
  have hn1 := congrArg (fun v => v.2.1) h1
  simp only [menuView] at hb1 hn1
  have h2 := menuToggle_view (menuToggle s) _ _ hb1 hn1
  have hb2 := congrArg Prod.fst h2
  have hn2 := congrArg (fun v => v.2.1) h2
  have ho2 := congrArg (fun v => v.2.2) h2
  simp only [menuView] at hb2 hn2 ho2
  refine ⟨_, _, hb2, hn2, ?_, ?_⟩
  · rw [contains_toggle, contains_toggle]
    cases classList.contains n "active" <;> rfl
  · rw [ho2]
    simp only [contains_toggle]
    cases classList.contains n "active"
    · simp only [Bool.not_false, if_true, Bool.false_eq_true, if_false]
      constructor
      · rintro ⟨e1, e2⟩
        exact ⟨e1.symm, e2.symm⟩
      · rintro ⟨e1, e2⟩
        exact ⟨e1.symm, e2.symm⟩
    · simp only [Bool.not_true, if_true, Bool.false_eq_true, if_false]
      constructor
      · rintro ⟨e1, e2⟩
        exact ⟨e1.symm, e2.symm⟩
      · rintro ⟨e1, e2⟩
        exact ⟨e1.symm, e2.symm⟩

/-! ## Instances -/

/-- C1, counterexample: the button of this page has no `aria-expanded`
attribute before the first click; after two clicks it has `aria-expanded`
equal to `false`. -/
theorem menuToggle_twice_counterexample :
    plainButtonState.doc.mobileMenuBtn = some ⟨["mobile-menu-btn"], none, none⟩ ∧
    plainButtonState.doc.navList = some ["nav-list"] ∧
    (menuToggle (menuToggle plainButtonState)).doc.mobileMenuBtn =
      some ⟨["mobile-menu-btn"], some "false", some "Открыть меню"⟩ ∧
    (run plainButtonState [.click .menuButton, .click .menuButton]).doc.mobileMenuBtn =
      some ⟨["mobile-menu-btn"], some "false", some "Открыть меню"⟩ := by
  decide

/-- C1, instance: the sample page, whose button starts with `aria-expanded`
equal to `false`. -/
theorem menuToggle_twice_witness :
    ∃ b2 n2, (menuToggle (menuToggle sampleState)).doc.mobileMenuBtn = some b2 ∧
      (menuToggle (menuToggle sampleState)).doc.navList = some n2 ∧
      classList.contains n2 "active" = classList.contains ["nav-list"] "active" ∧
      ((b2.ariaExpanded = some "false" ∧
          (menuToggle (menuToggle sampleState)).doc.body.overflow =
            sampleState.doc.body.overflow) ↔
        ((some "false" : Option String) =
            some (if classList.contains ["nav-list"] "active" then "true" else "false") ∧
          sampleState.doc.body.overflow =
            (if classList.contains ["nav-list"] "active" then "hidden" else ""))) :=
  menuToggle_twice sampleState ⟨["mobile-menu-btn"], some "false", some "Открыть меню"⟩
    ["nav-list"] (by decide) (by decide)

/-- C2, the failing input: a click on an anchor whose `href` is a bare hash
throws in `querySelector`. -/
theorem anchorClick_bare_hash :
    (⟨"#", false⟩ : Anchor) ∈ sampleState.anchorListeners ∧
    sampleState.doc.querySelector "#" = .error (.invalidSelector "#") ∧
    anchorClick sampleState ⟨"#", false⟩ = .error (.invalidSelector "#") ∧
    (click sampleState (.anchor ⟨"#", false⟩)).errors = [.invalidSelector "#"] ∧
    (click sampleState (.anchor ⟨"#", false⟩)).scrollCalls = [] :=
  ⟨by decide, rfl, rfl, by decide, by decide⟩

/-- C3, the failing input: on a page without `.site-header`, a click on an
anchor whose target exists reads `offsetHeight` of `null`. -/
theorem anchorClick_without_siteHeader :
    noSiteHeaderState.doc.siteHeader = none ∧
    (⟨"#catalog", true⟩ : Anchor) ∈ noSiteHeaderState.anchorListeners ∧
    noSiteHeaderState.doc.querySelector "#catalog" = .ok (some 800) ∧
    anchorClick noSiteHeaderState ⟨"#catalog", true⟩ = .error (.nullProperty "offsetHeight") ∧
    (click noSiteHeaderState (.anchor ⟨"#catalog", true⟩)).errors =
      [.nullProperty "offsetHeight"] :=
  ⟨by decide, by decide, rfl, rfl, by decide⟩

/-- C4, the failing input: `showModal('text', '<!--')`.  The open comment of
the title takes the `.modal-close` button in, line 363 throws on `null` after
the overlay was appended, and no close listener is registered: the modal is
in the document, and Escape does not close it, 300 ms later or ever. -/
theorem escape_key_modal_without_listeners :
    brokenTitleState.errors = [.nullProperty "addEventListener"] ∧
    modalInDocument brokenTitleState 0 = true ∧
    brokenTitleState.escapeListeners = [] ∧ brokenTitleState.closeListeners = [] ∧
    modalInDocument (run brokenTitleState [.keydown "Escape", .advance 300]) 0 = true ∧
    modalInDocument
      (run brokenTitleState [.advance 50, .keydown "Escape", .advance 600000]) 0 = true ∧
    modalInDocument
      (run brokenTitleState [.click (.modalOverlay 0), .advance 300]) 0 = true := by
  decide

/-- A second slip on the Escape path: `closeOnEscape` takes itself off the
document only when Escape is pressed (line 375).  After a modal was closed by
its close button and removed, the listener is still registered; the next
Escape, with the menu closed and no modal in the document, runs it: a timer is
scheduled and the listener goes, while the document stays as it is. -/
theorem escape_leftover_listener :
    navActive afterModalState = false ∧ afterModalState.doc.modals = [] ∧
    afterModalState.escapeListeners = [0] ∧
    afterModalState.timers = [⟨3000, .loadFallback⟩] ∧
    keydown afterModalState "Escape" ≠ afterModalState ∧
    (keydown afterModalState "Escape").doc = afterModalState.doc ∧
    (keydown afterModalState "Escape").escapeListeners = [] ∧
    (keydown afterModalState "Escape").timers =
      [⟨3000, .loadFallback⟩, ⟨1600, .modalRemove 0⟩] := by
  decide

/-- Instances of `escape_key_effects`: Escape on the sample page with the menu
open, Escape after a modal was opened, Escape on the untouched sample page. -/
theorem escape_key_effects_instance :
    (∃ b1 n1, (keydown (click sampleState .menuButton) "Escape").doc.mobileMenuBtn = some b1 ∧
      (keydown (click sampleState .menuButton) "Escape").doc.navList = some n1 ∧
      classList.contains n1 "active" = false ∧ classList.contains b1.classes "active" = false ∧
      b1.ariaExpanded = some "false" ∧
      (keydown (click sampleState .menuButton) "Escape").doc.body.overflow = "") ∧
    modalInDocument
      (run (keydown (run (showModal sampleState "text" "title" true) [.advance 50]) "Escape")
        [.advance 300]) sampleState.nextId = false ∧
    keydown sampleState "Escape" = sampleState :=
  ⟨(escape_key_effects (click sampleState .menuButton)
      ⟨["mobile-menu-btn", "active"], some "true", some "Закрыть меню"⟩ ["nav-list", "active"]
      "" "" true [] []).1 (by decide) (by decide) (by decide) (by decide),
    (escape_key_effects sampleState ⟨[], none, none⟩ [] "text" "title" true [.advance 50]
      [.advance 300]).2.1 (by decide) (by decide),
    ((escape_key_effects sampleState ⟨[], none, none⟩ [] "" "" true [] []).2.2 (by decide)
      (by decide)).2 (by decide)⟩

/-- C5, counterexample: two modals are open, the first is closed by its close
button; after the 300 ms the second is still in the document. -/
theorem modal_removed_counterexample :
    (run sampleState [.showModal "a" "A" true, .showModal "b" "B" true, .click (.modalClose 0),
      .advance 300]).doc.modals.map (fun m => m.id) = [1] := by
  decide

/-- C5, instance: one modal with a plain title on the sample page, closed by a
click on the overlay. -/
theorem modal_removed_after_close_witness :
    closeButtonFound "title" false = true ∧
    modalInDocument (showModal sampleState "text" "title" false) sampleState.nextId = true ∧
    modalInDocument
      (run (step (run (showModal sampleState "text" "title" false) [.advance 20])
        (ClosePath.overlay.event sampleState.nextId)) [.advance 300]) sampleState.nextId = false ∧
    (run (step (run (showModal sampleState "text" "title" false) [.advance 20])
        (ClosePath.overlay.event sampleState.nextId)) [.advance 300]).doc.modals = [] :=
  ⟨by decide, by decide,
    (modal_removed_after_close sampleState "text" "title" false [.advance 20] .overlay
      [.advance 300] (by decide) (by decide)).1,
    (modal_removed_after_close sampleState "text" "title" false [.advance 20] .overlay
      [.advance 300] (by decide) (by decide)).2 (by decide) (by decide)⟩

/-- C6, instance: a warning shown for two seconds on the sample page. -/
theorem showNotification_witness :
    2000 + 300 ≤ elapsed [Event.advance 1000, .load, .advance 1300] ∧
    ((∃ n ∈ (showNotification sampleState "saved" "warning" 2000).doc.notifications,
      n.id = sampleState.nextId ∧ n.textContent = "saved" ∧
      ("warning" = "success" → n.backgroundColor = "#4ade80") ∧
      ("warning" = "error" → n.backgroundColor = "#f87171") ∧
      ("warning" = "warning" → n.backgroundColor = "#fbbf24") ∧
      ("warning" = "info" → n.backgroundColor = "#667eea")) ∧
    notificationInDocument (showNotification sampleState "saved" "warning" 2000)
      sampleState.nextId = true ∧
    notificationInDocument (run (showNotification sampleState "saved" "warning" 2000)
      [.advance 1000, .load, .advance 1300]) sampleState.nextId = false) :=
  ⟨by decide, showNotification_color_and_removal sampleState "saved" "warning" 2000
    [.advance 1000, .load, .advance 1300] (by decide)⟩

/-- C7, instance: the sample page scrolled to 0, to 500 and back to 100. -/
theorem backToTop_visible_iff_witness :
    ∃ c1, (run sampleState (([0, 500] ++ [100]).map Event.scroll)).doc.backToTop = some c1 ∧
      (classList.contains c1 "visible" = true ↔ (100 : Int) > 300) ∧
      backToTopScroll (run sampleState (([0, 500] ++ [100]).map Event.scroll)) =
        run sampleState (([0, 500] ++ [100]).map Event.scroll) ∧
      (scroll (run sampleState (([0, 500] ++ [100]).map Event.scroll)) 100).doc.backToTop =
        some c1 :=
  backToTop_visible_iff sampleState ["back-to-top"] (by decide) (by decide) [0, 500] 100

/-- C8, counterexample: the overlay carries `hidden` in the markup and the load
event never comes; the fallback skips it and it stays in the document. -/
theorem loading_overlay_counterexample :
    (run hiddenOverlayState [.advance 3300]).doc.loading =
      some ⟨["loading-overlay", "hidden"], true⟩ ∧
    (run hiddenOverlayState [.advance 3300, .advance 600000]).doc.loading =
      some ⟨["loading-overlay", "hidden"], true⟩ := by
  decide

/-- C8, instance: the sample page, load event 2900 ms after initialisation. -/
theorem loading_overlay_removed_witness :
    samplePage.loading = some ⟨["loading-overlay"], true⟩ ∧
    ∃ o1, (run (domContentLoaded (State.ofDocument samplePage 0))
        [.advance 2900, .load, .advance 400]).doc.loading = some o1 ∧
      classList.contains o1.classes "hidden" = true ∧ o1.inDocument = false :=
  ⟨rfl, loading_overlay_removed samplePage 0 ⟨["loading-overlay"], true⟩
    [.advance 2900, .load, .advance 400] rfl rfl (by decide) (by decide)⟩

/-- C9, instance: the sample page scrolled down to 150. -/
theorem headerScroll_effects_witness :
    ∃ h1, (scroll sampleState 150).doc.header = some h1 ∧
      (classList.contains h1.classes "scrolled" = true ↔ (150 : Int) > 10) ∧
      ((150 : Int) > sampleState.lastScrollY ∧ (150 : Int) > 100 →
        h1.transform = "translateY(-100%)") ∧
      ((150 : Int) < sampleState.lastScrollY → h1.transform = "translateY(0)") ∧
      (scroll sampleState 150).lastScrollY = 150 ∧
      ∀ (s2 : State) (h2 : Header), s2.headerListener = true → s2.doc.header = some h2 →
        ∃ h3, (scroll s2 150).doc.header = some h3 ∧
          (h2.classes = ["site-header"] → h3.classes = h1.classes) ∧
          (s2.lastScrollY = sampleState.lastScrollY → h3.transform = h1.transform) :=
  headerScroll_effects sampleState ⟨["site-header"], ""⟩ 150 (by decide) (by decide)

/-- C10, instance: the sample page; the menu is opened, closed by Escape,
opened, closed by a click outside, and opened again. -/
theorem menu_state_mirrored_witness :
    ∃ b1 n1,
      (run sampleState [.click .menuButton, .keydown "Escape", .click .menuButton,
        .click .elsewhere, .click .menuButton]).doc.mobileMenuBtn = some b1 ∧
      (run sampleState [.click .menuButton, .keydown "Escape", .click .menuButton,
        .click .elsewhere, .click .menuButton]).doc.navList = some n1 ∧
      (classList.contains n1 "active" = true ↔ classList.contains b1.classes "active" = true) ∧
      (classList.contains n1 "active" = true ↔ b1.ariaExpanded = some "true") ∧
      (classList.contains n1 "active" = true ↔
        (run sampleState [.click .menuButton, .keydown "Escape", .click .menuButton,
          .click .elsewhere, .click .menuButton]).doc.body.overflow = "hidden") :=
  menu_state_mirrored sampleState ⟨["mobile-menu-btn"], some "false", some "Открыть меню"⟩
    ["nav-list"] (by decide) (by decide) (by decide) (by decide) (by decide) (by decide)
    [.click .menuButton, .keydown "Escape", .click .menuButton, .click .elsewhere,
      .click .menuButton]

end AnimeCatalog
